import Mathlib

/-!
Verification of the sleaf-llvm compiler front end (lexer, parser, AST,
code generator) against its specification.  The C++ sources are embedded
shallowly: the lexer is a character-level state machine over `List Char`,
the parser is a fueled recursive-descent function over the lexer, the AST
is an inductive family, and the code generator produces a small model of
an IR module (functions, basic blocks, typed instructions).
-/

namespace Sleaf

/-- Token kinds, mirroring `enum class TokenType` in the lexer header
(including `VOID` and `QUESTION`, which the implementation files use). -/
inductive TokenType where
  | FUNC | RETURN
  | I8 | I16 | I32 | I64 | U8 | U16 | U32 | U64 | F32 | F64
  | BOOL | STRING | CHAR | VOID
  | IF | ELSE | WHILE | FOR | STRUCT | IMPORT | CONST | VAR | TRUE | FALSE
  | IDENTIFIER | INT_LITERAL | FLOAT_LITERAL | STRING_LITERAL | CHAR_LITERAL
  | PLUS | MINUS | STAR | SLASH | PERCENT
  | EQUAL | EQUAL_EQUAL | BANG | BANG_EQUAL
  | LESS | LESS_EQUAL | GREATER | GREATER_EQUAL
  | AMPERSAND | AMPERSAND_AMP | PIPE | PIPE_PIPE
  | ARROW | PLUS_PLUS | PLUS_EQUAL
  | LEFT_PAREN | RIGHT_PAREN | LEFT_BRACE | RIGHT_BRACE
  | LEFT_BRACKET | RIGHT_BRACKET
  | COMMA | SEMICOLON | COLON | DOT | QUESTION
  | END_OF_FILE | ERROR
deriving DecidableEq, Repr

/-- A lexical token: kind, lexeme text, 1-based line and column
(`struct Token` in the lexer header; `int` fields are modelled as `Int`). -/
structure Token where
  type : TokenType
  lexeme : String
  line : Int
  column : Int
deriving DecidableEq, Repr

/-- Mutable lexer state: `m_CURRENT`, `m_LINE`, `m_COLUMN`, `m_START`.
The source string is passed separately as a fixed `List Char`. -/
structure LexSt where
  cur : Nat
  line : Int
  col : Int
  start : Nat
deriving DecidableEq, Repr

/-- Character at index `i` of the source, `'\x00'` when out of range
(the convention used by `Lexer::peek` and `Lexer::peek_next`). -/
def chAt (src : List Char) (i : Nat) : Char :=
  if h : i < src.length then src.get ⟨i, h⟩ else '\x00'

/-- `Lexer::peek`. -/
def peek (src : List Char) (st : LexSt) : Char := chAt src st.cur

/-- `Lexer::peek_next`. -/
def peekNext (src : List Char) (st : LexSt) : Char := chAt src (st.cur + 1)

/-- State effect of `Lexer::advance`: consume one character, updating the
line/column counters (newline resets the column to 1). At end of input the
state is unchanged. -/
def adv (src : List Char) (st : LexSt) : LexSt :=
  if st.cur < src.length then
    if chAt src st.cur = '\n' then ⟨st.cur + 1, st.line + 1, 1, st.start⟩
    else ⟨st.cur + 1, st.line, st.col + 1, st.start⟩
  else st

/-- `Lexer::match`: conditionally consume the current character. -/
def mtch (src : List Char) (expected : Char) (st : LexSt) : Bool × LexSt :=
  if st.cur < src.length then
    if chAt src st.cur = expected then (true, adv src st) else (false, st)
  else (false, st)

/-- `Lexer::make_token`: the lexeme is the substring `[m_START, m_CURRENT)`
and the starting column is the current column minus the lexeme length. -/
def makeToken (src : List Char) (st : LexSt) (t : TokenType) : Token :=
  let lexeme := String.mk ((src.drop st.start).take (st.cur - st.start))
  ⟨t, lexeme, st.line, st.col - (lexeme.length : Int)⟩

/-- `Lexer::error_token`: an ERROR token whose lexeme is the message. -/
def errorToken (st : LexSt) (msg : String) : Token :=
  ⟨.ERROR, msg, st.line, st.col⟩

/-- `Lexer::is_alpha`: letters, underscore, or any byte above `0x7F`. -/
def isAlpha (c : Char) : Bool :=
  decide ((('a' ≤ c) ∧ (c ≤ 'z')) ∨ (('A' ≤ c) ∧ (c ≤ 'Z')) ∨ c = '_' ∨ 0x7F < c.toNat)

/-- `Lexer::is_digit`. -/
def isDigit (c : Char) : Bool := decide (('0' ≤ c) ∧ (c ≤ '9'))

/-- `Lexer::is_hex_digit`. -/
def isHexDigit (c : Char) : Bool :=
  isDigit c || decide ((('a' ≤ c) ∧ (c ≤ 'f')) ∨ (('A' ≤ c) ∧ (c ≤ 'F')))

/-- `Lexer::is_bin_digit`. -/
def isBinDigit (c : Char) : Bool := decide (c = '0' ∨ c = '1')

/-- `Lexer::is_alpha_numeric`. -/
def isAlphaNumeric (c : Char) : Bool := isAlpha c || isDigit c

/-- The loop of `Lexer::skip_whitespace` (fueled: every iteration consumes
one character, so `src.length + 1` fuel always suffices). -/
def skipWhitespaceF (src : List Char) : Nat → LexSt → LexSt
  | 0, st => st
  | fuel + 1, st =>
    if st.cur < src.length then
      if peek src st = ' ' ∨ peek src st = '\x0d' ∨ peek src st = '\t' ∨ peek src st = '\n' then
        skipWhitespaceF src fuel (adv src st)
      else st
    else st

/-- `Lexer::skip_whitespace`: consume spaces, carriage returns, tabs and
newlines until a non-whitespace character or end of input. -/
def skipWhitespace (src : List Char) (st : LexSt) : LexSt :=
  skipWhitespaceF src (src.length + 1) st

/-- The loop of `Lexer::skip_line_comment` (fueled). -/
def skipLineCommentF (src : List Char) : Nat → LexSt → LexSt
  | 0, st => st
  | fuel + 1, st =>
    if st.cur < src.length then
      if peek src st = '\n' then st
      else skipLineCommentF src fuel (adv src st)
    else st

/-- `Lexer::skip_line_comment`: consume to just before the next newline
(or to end of input). -/
def skipLineComment (src : List Char) (st : LexSt) : LexSt :=
  skipLineCommentF src (src.length + 1) st

/-- The loop of `Lexer::skip_block_comment` (fueled). -/
def skipBlockCommentF (src : List Char) : Nat → LexSt → LexSt
  | 0, st => st
  | fuel + 1, st =>
    if st.cur < src.length then
      if peek src st = '*' ∧ peekNext src st = '/' then adv src (adv src st)
      else skipBlockCommentF src fuel (adv src st)
    else st

/-- `Lexer::skip_block_comment`: consume until `*/` (consuming it) or to
end of input (unterminated comments are silently accepted). -/
def skipBlockComment (src : List Char) (st : LexSt) : LexSt :=
  skipBlockCommentF src (src.length + 1) st

/-- The scanning loop of `Lexer::scan_identifier` (fueled; the loop only
continues on alphanumeric characters, and `peek` past the end yields the
non-alphanumeric `'\x00'`). -/
def scanIdentLoopF (src : List Char) : Nat → LexSt → LexSt
  | 0, st => st
  | fuel + 1, st =>
    if isAlphaNumeric (peek src st) = true then scanIdentLoopF src fuel (adv src st)
    else st

/-- The scanning loop of `Lexer::scan_identifier`: consume alphanumeric
continuation characters. -/
def scanIdentLoop (src : List Char) (st : LexSt) : LexSt :=
  scanIdentLoopF src (src.length + 1) st

/-- The keyword table of `Lexer::scan_identifier`. -/
def keywordType (s : String) : Option TokenType :=
  match s with
  | "func" => some .FUNC
  | "return" => some .RETURN
  | "i8" => some .I8
  | "i16" => some .I16
  | "i32" => some .I32
  | "i64" => some .I64
  | "u8" => some .U8
  | "u16" => some .U16
  | "u32" => some .U32
  | "u64" => some .U64
  | "f32" => some .F32
  | "f64" => some .F64
  | "bool" => some .BOOL
  | "string" => some .STRING
  | "char" => some .CHAR
  | "void" => some .VOID
  | "true" => some .TRUE
  | "false" => some .FALSE
  | "if" => some .IF
  | "else" => some .ELSE
  | "while" => some .WHILE
  | "for" => some .FOR
  | "struct" => some .STRUCT
  | "import" => some .IMPORT
  | "const" => some .CONST
  | "var" => some .VAR
  | _ => none

/-- `Lexer::scan_identifier`: called after the first character has been
consumed; keywords are recognised by exact match, everything else is an
IDENTIFIER. -/
def scanIdentifier (src : List Char) (st : LexSt) : Token × LexSt :=
  let st1 := scanIdentLoop src st
  let text := String.mk ((src.drop st1.start).take (st1.cur - st1.start))
  match keywordType text with
  | some t => (makeToken src st1 t, st1)
  | none => (makeToken src st1 .IDENTIFIER, st1)

/-- Result of the digit-scanning loop of `Lexer::scan_number`: either the
final float flag and state, or the state at which `.` was rejected. -/
inductive NumRes where
  | done (isFloat : Bool) (st : LexSt)
  | bad (st : LexSt)
deriving DecidableEq, Repr

/-- The main loop of `Lexer::scan_number`: a `.` marks a float unless one
was already seen or a hex/bin prefix is active (then it is an error);
underscores are skipped; digits of the active base are consumed. -/
def scanNumberLoopF (src : List Char) : Nat → Bool → Bool → Bool → LexSt → NumRes
  | 0, isFloat, _, _, st => .done isFloat st
  | fuel + 1, isFloat, isHex, isBin, st =>
    if st.cur < src.length then
      if peek src st = '.' then
        if isFloat || isHex || isBin then .bad st
        else scanNumberLoopF src fuel true isHex isBin (adv src st)
      else if peek src st = '_' then scanNumberLoopF src fuel isFloat isHex isBin (adv src st)
      else if (if isHex then isHexDigit (peek src st)
               else if isBin then isBinDigit (peek src st)
               else isDigit (peek src st)) = true then
        scanNumberLoopF src fuel isFloat isHex isBin (adv src st)
      else .done isFloat st
    else .done isFloat st

/-- The main loop of `Lexer::scan_number` with the canonical fuel. -/
def scanNumberLoop (src : List Char) (isFloat isHex isBin : Bool) (st : LexSt) : NumRes :=
  scanNumberLoopF src (src.length + 1) isFloat isHex isBin st

/-- The exponent-digit loop of `Lexer::scan_number` (fueled). -/
def expDigitsF (src : List Char) : Nat → LexSt → LexSt
  | 0, st => st
  | fuel + 1, st =>
    if isDigit (peek src st) = true then expDigitsF src fuel (adv src st)
    else st

/-- The exponent-digit loop of `Lexer::scan_number`. -/
def expDigits (src : List Char) (st : LexSt) : LexSt :=
  expDigitsF src (src.length + 1) st

/-- Tail of `Lexer::scan_number` after the hex/bin prefix detection: the
digit loop, then the exponent part `[eE][+-]?digits` (only outside hex/bin
mode, and it forces a FLOAT_LITERAL). -/
def scanNumberGo (src : List Char) (isHex isBin : Bool) (st : LexSt) : Token × LexSt :=
  match scanNumberLoop src false isHex isBin st with
  | .bad st2 => (errorToken st2 "Invalid numeric format", st2)
  | .done isF st2 =>
    if !isHex && !isBin && (peek src st2 == 'e' || peek src st2 == 'E') then
      let st3 := adv src st2
      let st4 := if peek src st3 == '+' || peek src st3 == '-' then adv src st3 else st3
      let st5 := expDigits src st4
      (makeToken src st5 .FLOAT_LITERAL, st5)
    else (makeToken src st2 (if isF then .FLOAT_LITERAL else .INT_LITERAL), st2)

/-- `Lexer::scan_number`: called with one digit consumed; an `x` or `b`
immediately after a leading `0` selects hex/binary digit scanning. -/
def scanNumber (src : List Char) (st : LexSt) : Token × LexSt :=
  if peek src st = 'x' ∧ st.cur - st.start = 1 ∧ chAt src st.start = '0' then
    scanNumberGo src true false (adv src st)
  else if peek src st = 'b' ∧ st.cur - st.start = 1 ∧ chAt src st.start = '0' then
    scanNumberGo src false true (adv src st)
  else scanNumberGo src false false st

/-- The scanning loop of `Lexer::scan_string` (fueled): runs to the
closing `"` or end of input; a backslash consumes itself plus the
following character. -/
def scanStringLoopF (src : List Char) : Nat → LexSt → LexSt
  | 0, st => st
  | fuel + 1, st =>
    if st.cur < src.length then
      if peek src st = '"' then st
      else
        if peek src st = '\\' then scanStringLoopF src fuel (adv src (adv src st))
        else scanStringLoopF src fuel (adv src st)
    else st

/-- The scanning loop of `Lexer::scan_string`. -/
def scanStringLoop (src : List Char) (st : LexSt) : LexSt :=
  scanStringLoopF src (src.length + 1) st

/-- `Lexer::scan_string`: unterminated strings produce an ERROR token whose
lexeme is the diagnostic message. -/
def scanString (src : List Char) (st : LexSt) : Token × LexSt :=
  let st1 := scanStringLoop src st
  if src.length ≤ st1.cur then (errorToken st1 "Unterminated string", st1)
  else
    let st2 := adv src st1
    (makeToken src st2 .STRING_LITERAL, st2)

/-- The closing-quote check shared by both branches of `Lexer::scan_char`. -/
def scanCharClose (src : List Char) (st : LexSt) : Token × LexSt :=
  if peek src st ≠ '\'' then (errorToken st "Character too long", st)
  else
    let st2 := adv src st
    (makeToken src st2 .CHAR_LITERAL, st2)

/-- `Lexer::scan_char`, transcribed exactly: it begins with an unconditional
`advance()` (consuming the character after the opening quote), then peeks:
a backslash consumes itself and one more character, otherwise one more
character is consumed, and then the closing quote is required. -/
def scanChar (src : List Char) (st : LexSt) : Token × LexSt :=
  let st1 := adv src st
  if src.length ≤ st1.cur then (errorToken st1 "Unterminated character", st1)
  else
    if peek src st1 = '\\' then
      let st2 := adv src st1
      if src.length ≤ st2.cur then (errorToken st2 "Unterminated character after escape", st2)
      else scanCharClose src (adv src st2)
    else scanCharClose src (adv src st1)

/-- Result of one dispatch step of `Lexer::scan_token`: either a token
with the resulting state, or (after skipping a comment) a state from which
scanning must be retried (`scan_token`'s self-recursive call). -/
inductive ScanStep where
  | tok (t : Token) (st : LexSt)
  | retry (st : LexSt)
deriving DecidableEq, Repr

/-- The state carried by a `ScanStep`. -/
def stepSt : ScanStep → LexSt
  | .tok _ st => st
  | .retry st => st

/-- The dispatch switch of `Lexer::scan_token`, applied after the first
character `c` of the token has been consumed (state `st2`).  The two
comment cases of the `'/'` arm are the source's self-recursive calls,
reported as `.retry`. -/
def scanDispatch (src : List Char) (c : Char) (st2 : LexSt) : ScanStep :=
  if isAlpha c then .tok (scanIdentifier src st2).1 (scanIdentifier src st2).2
  else if isDigit c then .tok (scanNumber src st2).1 (scanNumber src st2).2
  else if c = '(' then .tok (makeToken src st2 .LEFT_PAREN) st2
  else if c = ')' then .tok (makeToken src st2 .RIGHT_PAREN) st2
  else if c = '\x7b' then .tok (makeToken src st2 .LEFT_BRACE) st2
  else if c = '\x7d' then .tok (makeToken src st2 .RIGHT_BRACE) st2
  else if c = '[' then .tok (makeToken src st2 .LEFT_BRACKET) st2
  else if c = ']' then .tok (makeToken src st2 .RIGHT_BRACKET) st2
  else if c = ',' then .tok (makeToken src st2 .COMMA) st2
  else if c = ';' then .tok (makeToken src st2 .SEMICOLON) st2
  else if c = ':' then .tok (makeToken src st2 .COLON) st2
  else if c = '.' then .tok (makeToken src st2 .DOT) st2
  else if c = '?' then .tok (makeToken src st2 .QUESTION) st2
  else if c = '+' then
    if (mtch src '+' st2).1 then
      .tok (makeToken src (mtch src '+' st2).2 .PLUS_PLUS) (mtch src '+' st2).2
    else if (mtch src '=' st2).1 then
      .tok (makeToken src (mtch src '=' st2).2 .PLUS_EQUAL) (mtch src '=' st2).2
    else .tok (makeToken src st2 .PLUS) st2
  else if c = '-' then
    if (mtch src '>' st2).1 then
      .tok (makeToken src (mtch src '>' st2).2 .ARROW) (mtch src '>' st2).2
    else .tok (makeToken src st2 .MINUS) st2
  else if c = '*' then .tok (makeToken src st2 .STAR) st2
  else if c = '/' then
    if (mtch src '/' st2).1 then .retry (skipLineComment src (mtch src '/' st2).2)
    else if (mtch src '*' st2).1 then .retry (skipBlockComment src (mtch src '*' st2).2)
    else .tok (makeToken src st2 .SLASH) st2
  else if c = '%' then .tok (makeToken src st2 .PERCENT) st2
  else if c = '=' then
    if (mtch src '=' st2).1 then
      .tok (makeToken src (mtch src '=' st2).2 .EQUAL_EQUAL) (mtch src '=' st2).2
    else .tok (makeToken src st2 .EQUAL) st2
  else if c = '!' then
    if (mtch src '=' st2).1 then
      .tok (makeToken src (mtch src '=' st2).2 .BANG_EQUAL) (mtch src '=' st2).2
    else .tok (makeToken src st2 .BANG) st2
  else if c = '<' then
    if (mtch src '=' st2).1 then
      .tok (makeToken src (mtch src '=' st2).2 .LESS_EQUAL) (mtch src '=' st2).2
    else .tok (makeToken src st2 .LESS) st2
  else if c = '>' then
    if (mtch src '=' st2).1 then
      .tok (makeToken src (mtch src '=' st2).2 .GREATER_EQUAL) (mtch src '=' st2).2
    else .tok (makeToken src st2 .GREATER) st2
  else if c = '&' then
    if (mtch src '&' st2).1 then
      .tok (makeToken src (mtch src '&' st2).2 .AMPERSAND_AMP) (mtch src '&' st2).2
    else .tok (makeToken src st2 .AMPERSAND) st2
  else if c = '|' then
    if (mtch src '|' st2).1 then
      .tok (makeToken src (mtch src '|' st2).2 .PIPE_PIPE) (mtch src '|' st2).2
    else .tok (makeToken src st2 .PIPE) st2
  else if c = '"' then .tok (scanString src st2).1 (scanString src st2).2
  else if c = '\'' then .tok (scanChar src st2).1 (scanChar src st2).2
  else .tok (errorToken st2 ("Unexpected character: " ++ String.mk [c])) st2

/-- `Lexer::scan_token`, with explicit fuel for the self-recursive calls
taken after skipping a line or block comment (fuel 0 returns a placeholder
END_OF_FILE token; theorems establish that `src.length + 1` fuel always
suffices). -/
def scanTokenF (src : List Char) : Nat → LexSt → Token × LexSt
  | 0, st => (⟨.END_OF_FILE, "", 0, 0⟩, st)
  | fuel + 1, st =>
    let st0 := skipWhitespace src st
    if src.length ≤ st0.cur then (makeToken src st0 .END_OF_FILE, st0)
    else
      let st1 : LexSt := ⟨st0.cur, st0.line, st0.col, st0.cur⟩
      let c := peek src st1
      let st2 := adv src st1
      match scanDispatch src c st2 with
      | .tok t stO => (t, stO)
      | .retry stO => scanTokenF src fuel stO

/-- `Lexer::scan_token` with the canonical (always sufficient) fuel. -/
def scanToken (src : List Char) (st : LexSt) : Token × LexSt :=
  scanTokenF src (src.length + 1) st

/-- The initial lexer state (`m_CURRENT = 0`, `m_LINE = m_COLUMN = 1`,
`m_START = 0`). -/
def lexInit : LexSt := ⟨0, 1, 1, 0⟩

/-- Expression nodes of the AST (`ast.hpp`): Binary, Unary, Assign, Call,
Identifier, Literal, Grouping. -/
inductive Expr where
  | binary (op : TokenType) (left right : Expr)
  | unary (op : TokenType) (operand : Expr)
  | assign (op : TokenType) (target value : Expr)
  | call (callee : Expr) (args : List Expr)
  | ident (name : String)
  | lit (litType : TokenType) (value : String)
  | grouping (inner : Expr)
deriving Repr

/-- Statement nodes of the AST.  Statement lists use `Option Stmt` because
the parser stores null pointers (`nullptr` results of failed declarations)
directly into statement vectors.  A `FunctionDecl` body is the statement
list of its `BlockStmt`. -/
inductive Stmt where
  | block (stmts : List (Option Stmt))
  | funcDecl (name : String) (params : List (String × TokenType))
      (retType : TokenType) (body : List (Option Stmt))
  | varDecl (varType : TokenType) (name : String) (init : Option Expr) (isConst : Bool)
  | ifS (cond : Expr) (thenBranch : Stmt) (elseBranch : Option Stmt)
  | whileS (cond : Expr) (body : Stmt)
  | forS (init : Option Stmt) (cond : Option Expr) (incr : Option Expr) (body : Stmt)
  | ret (value : Option Expr)
  | exprStmt (e : Expr)
deriving Repr

/-- `Expr::get_type` / `result_type` (ast.cpp): the shallow type
heuristic.  A Binary expression is F64 when either operand is F32/F64 and
otherwise I32; Unary/Grouping forward; Assign forwards its target;
Identifier and Call report the fixed default I32; a Literal reports its
own literal kind. -/
def getType : Expr → TokenType
  | .binary _ l r =>
      if getType l = .F32 ∨ getType r = .F32 ∨ getType l = .F64 ∨ getType r = .F64 then .F64
      else .I32
  | .unary _ e => getType e
  | .assign _ t _ => getType t
  | .call _ _ => .I32
  | .ident _ => .I32
  | .lit t _ => t
  | .grouping e => getType e

/-- Parser state: lexer state, `m_current`, `m_previous`, `m_error_count`,
`m_panic_mode`. -/
structure PState where
  lex : LexSt
  current : Token
  previous : Token
  errorCount : Nat
  panic : Bool
deriving DecidableEq, Repr

/-- State effect of `Parser::error` (the message goes to stderr): in panic
mode nothing happens, otherwise panic mode is entered and the error count
is incremented. -/
def pError (st : PState) : PState :=
  if st.panic then st else { st with panic := true, errorCount := st.errorCount + 1 }

/-- `Parser::advance`: save the current token, and fetch a new one only if
the current token is not END_OF_FILE (`Parser::is_at_end` inspects
`m_current`); an ERROR token is reported via `Parser::error`. -/
def pAdvance (src : List Char) (st : PState) : PState :=
  let st1 := { st with previous := st.current }
  if st1.current.type = .END_OF_FILE then st1
  else
    let r := scanToken src st1.lex
    let st2 := { st1 with lex := r.2, current := r.1 }
    if r.1.type = .ERROR then pError st2 else st2

/-- `Parser::check`: false at end of input, otherwise a kind comparison. -/
def pCheck (st : PState) (t : TokenType) : Bool :=
  if st.current.type = .END_OF_FILE then false else decide (st.current.type = t)

/-- `Parser::match`. -/
def pMatch (src : List Char) (t : TokenType) (st : PState) : Bool × PState :=
  if pCheck st t then (true, pAdvance src st) else (false, st)

/-- `Parser::match_any`. -/
def pMatchAny (src : List Char) (ts : List TokenType) (st : PState) : Bool × PState :=
  match ts with
  | [] => (false, st)
  | t :: rest => if pCheck st t then (true, pAdvance src st) else pMatchAny src rest st

/-- `Parser::consume`: advance on the expected kind, otherwise report an
error (without consuming). -/
def pConsume (src : List Char) (t : TokenType) (st : PState) : PState :=
  if pCheck st t then pAdvance src st else pError st

/-- The recovery token set of `Parser::synchronize`. -/
def recoveryTokens : List TokenType :=
  [.FUNC, .VAR, .CONST, .FOR, .IF, .WHILE, .RETURN]

/-- The loop of `Parser::synchronize_after_error` (fueled: the loop pulls
tokens from the lexer and can fail to make progress at end of input
conditions; sufficient fuel is supplied by callers). -/
def pSyncLoop (src : List Char) : Nat → PState → PState
  | 0, st => st
  | f + 1, st =>
    if st.current.type = .END_OF_FILE then st
    else if st.previous.type = .SEMICOLON then st
    else if recoveryTokens.any (fun t => pCheck st t) then st
    else pSyncLoop src f (pAdvance src st)

/-- `Parser::synchronize`: clear panic mode, then skip tokens. -/
def pSynchronize (src : List Char) (fuel : Nat) (st : PState) : PState :=
  pSyncLoop src fuel { st with panic := false }

/-- `Parser::type_annotation`: requires the current token to be an
IDENTIFIER whose lexeme is in the fixed type table, otherwise reports an
error and returns ERROR without consuming. -/
def typeMapLookup (s : String) : Option TokenType :=
  match s with
  | "i8" => some .I8
  | "i16" => some .I16
  | "i32" => some .I32
  | "i64" => some .I64
  | "u8" => some .U8
  | "u16" => some .U16
  | "u32" => some .U32
  | "u64" => some .U64
  | "f32" => some .F32
  | "f64" => some .F64
  | "bool" => some .BOOL
  | "string" => some .STRING
  | "char" => some .CHAR
  | "void" => some .VOID
  | _ => none

/-- `Parser::type_annotation`. -/
def pTypeAnnotation (src : List Char) (st : PState) : PState × TokenType :=
  if st.current.type ≠ .IDENTIFIER then (pError st, .ERROR)
  else
    match typeMapLookup st.current.lexeme with
    | none => (pError st, .ERROR)
    | some t => (pAdvance src st, t)

/-- Result of a fueled parser production: a value, a thrown
`std::runtime_error` (from `Parser::primary`), or fuel exhaustion. -/
inductive PRes (α : Type) where
  | ok (a : α)
  | thrown
  | nofuel
deriving DecidableEq, Repr

/-- The catch clause of `Parser::declaration`: a thrown parse error is
caught, the parser synchronizes, and a null statement is returned. -/
def pCatch (src : List Char) (fuel : Nat) :
    PState × PRes Stmt → PState × PRes (Option Stmt)
  | (st, .ok s) => (st, .ok (some s))
  | (st, .thrown) => (pSynchronize src fuel st, .ok none)
  | (st, .nofuel) => (st, .nofuel)

/-- The do-while loop of `Parser::parse_parameter_list`. -/
def pParamLoop (src : List Char) :
    Nat → PState → List (String × TokenType) → PState × PRes (List (String × TokenType))
  | 0, st, _ => (st, .nofuel)
  | f + 1, st, acc =>
    let st1 := pConsume src .IDENTIFIER st
    let pname := st1.previous.lexeme
    let st2 := pConsume src .COLON st1
    let r := pTypeAnnotation src st2
    let acc1 := acc ++ [(pname, r.2)]
    match pMatch src .COMMA r.1 with
    | (true, st4) => pParamLoop src f st4 acc1
    | (false, st4) => (st4, .ok acc1)

/-- `Parser::parse_parameter_list`. -/
def pParamList (src : List Char) (fuel : Nat) (st : PState) :
    PState × PRes (List (String × TokenType)) :=
  if pCheck st .RIGHT_PAREN then (st, .ok []) else pParamLoop src fuel st []

mutual

/-- `Parser::declaration`: dispatch on `func`/`var`/`const`, fall through
to `statement`, and catch parse failures at this boundary. -/
def pDeclaration (src : List Char) (fuel : Nat) (st : PState) :
    PState × PRes (Option Stmt) :=
  match fuel with
  | 0 => (st, .nofuel)
  | f + 1 =>
    match pMatch src .FUNC st with
    | (true, st1) => pCatch src f (pFunctionDecl src f st1)
    | (false, _) =>
      match pMatch src .VAR st with
      | (true, st1) => pCatch src f (pVarDeclaration src f false st1)
      | (false, _) =>
        match pMatch src .CONST st with
        | (true, st1) => pCatch src f (pVarDeclaration src f true st1)
        | (false, _) => pCatch src f (pStatement src f st)

/-- `Parser::function_decl`.  Note: the body is parsed by calling `block()`
directly, which does not itself consume a LEFT_BRACE. -/
def pFunctionDecl (src : List Char) (fuel : Nat) (st : PState) : PState × PRes Stmt :=
  match fuel with
  | 0 => (st, .nofuel)
  | f + 1 =>
    let st1 := pConsume src .IDENTIFIER st
    let name := st1.previous.lexeme
    let st2 := pConsume src .LEFT_PAREN st1
    match pParamList src f st2 with
    | (st3, .ok params) =>
      let st4 := pConsume src .RIGHT_PAREN st3
      match pMatch src .ARROW st4 with
      | (true, st5) =>
        let r := pTypeAnnotation src st5
        match pBlock src f r.1 with
        | (st7, .ok body) => (st7, .ok (.funcDecl name params r.2 body))
        | (st7, .thrown) => (st7, .thrown)
        | (st7, .nofuel) => (st7, .nofuel)
      | (false, st5) =>
        match pBlock src f st5 with
        | (st7, .ok body) => (st7, .ok (.funcDecl name params .VOID body))
        | (st7, .thrown) => (st7, .thrown)
        | (st7, .nofuel) => (st7, .nofuel)
    | (st3, .thrown) => (st3, .thrown)
    | (st3, .nofuel) => (st3, .nofuel)

/-- `Parser::statement`. -/
def pStatement (src : List Char) (fuel : Nat) (st : PState) : PState × PRes Stmt :=
  match fuel with
  | 0 => (st, .nofuel)
  | f + 1 =>
    match pMatch src .IF st with
    | (true, st1) => pIfStatement src f st1
    | (false, _) =>
      match pMatch src .WHILE st with
      | (true, st1) => pWhileStatement src f st1
      | (false, _) =>
        match pMatch src .FOR st with
        | (true, st1) => pForStatement src f st1
        | (false, _) =>
          match pMatch src .RETURN st with
          | (true, st1) => pReturnStatement src f st1
          | (false, _) =>
            match pMatch src .LEFT_BRACE st with
            | (true, st1) =>
              match pBlock src f st1 with
              | (st2, .ok stmts) => (st2, .ok (.block stmts))
              | (st2, .thrown) => (st2, .thrown)
              | (st2, .nofuel) => (st2, .nofuel)
            | (false, _) => pExpressionStatement src f st

/-- The statement loop of `Parser::block` (accumulating declarations,
including null results, until RIGHT_BRACE or end of input, then consuming
the RIGHT_BRACE). -/
def pBlockLoop (src : List Char) (fuel : Nat) (st : PState) (acc : List (Option Stmt)) :
    PState × PRes (List (Option Stmt)) :=
  match fuel with
  | 0 => (st, .nofuel)
  | f + 1 =>
    if pCheck st .RIGHT_BRACE = false ∧ st.current.type ≠ .END_OF_FILE then
      match pDeclaration src f st with
      | (st1, .ok d) => pBlockLoop src f st1 (acc ++ [d])
      | (st1, .thrown) => (st1, .thrown)
      | (st1, .nofuel) => (st1, .nofuel)
    else (pConsume src .RIGHT_BRACE st, .ok acc)

/-- `Parser::block`. -/
def pBlock (src : List Char) (fuel : Nat) (st : PState) :
    PState × PRes (List (Option Stmt)) :=
  match fuel with
  | 0 => (st, .nofuel)
  | f + 1 => pBlockLoop src f st []

/-- `Parser::if_statement`. -/
def pIfStatement (src : List Char) (fuel : Nat) (st : PState) : PState × PRes Stmt :=
  match fuel with
  | 0 => (st, .nofuel)
  | f + 1 =>
    let st1 := pConsume src .LEFT_PAREN st
    match pExpression src f st1 with
    | (st2, .ok cond) =>
      let st3 := pConsume src .RIGHT_PAREN st2
      match pStatement src f st3 with
      | (st4, .ok thenB) =>
        match pMatch src .ELSE st4 with
        | (true, st5) =>
          match pStatement src f st5 with
          | (st6, .ok elseB) => (st6, .ok (.ifS cond thenB (some elseB)))
          | (st6, .thrown) => (st6, .thrown)
          | (st6, .nofuel) => (st6, .nofuel)
        | (false, st5) => (st5, .ok (.ifS cond thenB none))
      | (st4, .thrown) => (st4, .thrown)
      | (st4, .nofuel) => (st4, .nofuel)
    | (st2, .thrown) => (st2, .thrown)
    | (st2, .nofuel) => (st2, .nofuel)

/-- `Parser::while_statement`. -/
def pWhileStatement (src : List Char) (fuel : Nat) (st : PState) : PState × PRes Stmt :=
  match fuel with
  | 0 => (st, .nofuel)
  | f + 1 =>
    let st1 := pConsume src .LEFT_PAREN st
    match pExpression src f st1 with
    | (st2, .ok cond) =>
      let st3 := pConsume src .RIGHT_PAREN st2
      match pStatement src f st3 with
      | (st4, .ok body) => (st4, .ok (.whileS cond body))
      | (st4, .thrown) => (st4, .thrown)
      | (st4, .nofuel) => (st4, .nofuel)
    | (st2, .thrown) => (st2, .thrown)
    | (st2, .nofuel) => (st2, .nofuel)

/-- `Parser::for_statement`, including the parse-time desugaring into a
while loop.  The initializer branch that parses an expression statement
always reports an error, because a `dynamic_cast<VarDecl*>` of an
`ExpressionStmt` can never succeed. -/
def pForStatement (src : List Char) (fuel : Nat) (st : PState) : PState × PRes Stmt :=
  match fuel with
  | 0 => (st, .nofuel)
  | f + 1 =>
    let st1 := pConsume src .LEFT_PAREN st
    let initR : PState × PRes (Option Stmt) :=
      match pMatch src .VAR st1 with
      | (true, st2) =>
        match pVarDeclaration src f false st2 with
        | (st3, .ok v) => (st3, .ok (some v))
        | (st3, .thrown) => (st3, .thrown)
        | (st3, .nofuel) => (st3, .nofuel)
      | (false, _) =>
        match pMatch src .SEMICOLON st1 with
        | (true, st2) => (st2, .ok none)
        | (false, _) =>
          match pExpressionStatement src f st1 with
          | (st2, .ok _) => (pError st2, .ok none)
          | (st2, .thrown) => (st2, .thrown)
          | (st2, .nofuel) => (st2, .nofuel)
    match initR with
    | (stA, .ok initializer) =>
      let condR : PState × PRes (Option Expr) :=
        if pCheck stA .SEMICOLON then (stA, .ok none)
        else
          match pExpression src f stA with
          | (stB, .ok c) => (stB, .ok (some c))
          | (stB, .thrown) => (stB, .thrown)
          | (stB, .nofuel) => (stB, .nofuel)
      match condR with
      | (stB, .ok condition) =>
        let stC := pConsume src .SEMICOLON stB
        let incrR : PState × PRes (Option Expr) :=
          if pCheck stC .RIGHT_PAREN then (stC, .ok none)
          else
            match pExpression src f stC with
            | (stD, .ok i) => (stD, .ok (some i))
            | (stD, .thrown) => (stD, .thrown)
            | (stD, .nofuel) => (stD, .nofuel)
        match incrR with
        | (stD, .ok increment) =>
          let stE := pConsume src .RIGHT_PAREN stD
          match pStatement src f stE with
          | (stF, .ok body) =>
            let body1 :=
              match increment with
              | some i => Stmt.block [some body, some (.exprStmt i)]
              | none => body
            let cond1 :=
              match condition with
              | some c => c
              | none => Expr.lit .TRUE "true"
            let loop := Stmt.whileS cond1 body1
            match initializer with
            | some v => (stF, .ok (.block [some v, some loop]))
            | none => (stF, .ok loop)
          | (stF, .thrown) => (stF, .thrown)
          | (stF, .nofuel) => (stF, .nofuel)
        | (stD, .thrown) => (stD, .thrown)
        | (stD, .nofuel) => (stD, .nofuel)
      | (stB, .thrown) => (stB, .thrown)
      | (stB, .nofuel) => (stB, .nofuel)
    | (stA, .thrown) => (stA, .thrown)
    | (stA, .nofuel) => (stA, .nofuel)

/-- `Parser::var_declaration`. -/
def pVarDeclaration (src : List Char) (fuel : Nat) (isConst : Bool) (st : PState) :
    PState × PRes Stmt :=
  match fuel with
  | 0 => (st, .nofuel)
  | f + 1 =>
    let r := pTypeAnnotation src st
    let st2 := pConsume src .IDENTIFIER r.1
    let name := st2.previous.lexeme
    let initR : PState × PRes (Option Expr) :=
      match pMatch src .EQUAL st2 with
      | (true, st3) =>
        match pExpression src f st3 with
        | (st4, .ok e) => (st4, .ok (some e))
        | (st4, .thrown) => (st4, .thrown)
        | (st4, .nofuel) => (st4, .nofuel)
      | (false, st3) =>
        if isConst then (pError st3, .ok none) else (st3, .ok none)
    match initR with
    | (st5, .ok init) =>
      let st6 := pConsume src .SEMICOLON st5
      (st6, .ok (.varDecl r.2 name init isConst))
    | (st5, .thrown) => (st5, .thrown)
    | (st5, .nofuel) => (st5, .nofuel)

/-- `Parser::return_statement`. -/
def pReturnStatement (src : List Char) (fuel : Nat) (st : PState) : PState × PRes Stmt :=
  match fuel with
  | 0 => (st, .nofuel)
  | f + 1 =>
    if pCheck st .SEMICOLON then
      let st2 := pConsume src .SEMICOLON st
      (st2, .ok (.ret none))
    else
      match pExpression src f st with
      | (st1, .ok v) =>
        let st2 := pConsume src .SEMICOLON st1
        (st2, .ok (.ret (some v)))
      | (st1, .thrown) => (st1, .thrown)
      | (st1, .nofuel) => (st1, .nofuel)

/-- `Parser::expression_statement`. -/
def pExpressionStatement (src : List Char) (fuel : Nat) (st : PState) : PState × PRes Stmt :=
  match fuel with
  | 0 => (st, .nofuel)
  | f + 1 =>
    match pExpression src f st with
    | (st1, .ok e) => (pConsume src .SEMICOLON st1, .ok (.exprStmt e))
    | (st1, .thrown) => (st1, .thrown)
    | (st1, .nofuel) => (st1, .nofuel)

/-- `Parser::expression`. -/
def pExpression (src : List Char) (fuel : Nat) (st : PState) : PState × PRes Expr :=
  match fuel with
  | 0 => (st, .nofuel)
  | f + 1 => pAssignment src f st

/-- `Parser::assignment`: after parsing a ternary, an `=`/`+=` parses the
right-hand side recursively; an Identifier target yields an AssignExpr,
any other target reports "Invalid assignment target" and the left-hand
expression itself is returned. -/
def pAssignment (src : List Char) (fuel : Nat) (st : PState) : PState × PRes Expr :=
  match fuel with
  | 0 => (st, .nofuel)
  | f + 1 =>
    match pTernary src f st with
    | (st1, .ok e) =>
      match pMatchAny src [.EQUAL, .PLUS_EQUAL] st1 with
      | (true, st2) =>
        let op := st2.previous.type
        match pAssignment src f st2 with
        | (st3, .ok v) =>
          match e with
          | .ident n => (st3, .ok (.assign op (.ident n) v))
          | _ => (pError st3, .ok e)
        | (st3, .thrown) => (st3, .thrown)
        | (st3, .nofuel) => (st3, .nofuel)
      | (false, st2) => (st2, .ok e)
    | (st1, .thrown) => (st1, .thrown)
    | (st1, .nofuel) => (st1, .nofuel)

/-- `Parser::ternary`. -/
def pTernary (src : List Char) (fuel : Nat) (st : PState) : PState × PRes Expr :=
  match fuel with
  | 0 => (st, .nofuel)
  | f + 1 =>
    match pLogicOr src f st with
    | (st1, .ok e) =>
      match pMatch src .QUESTION st1 with
      | (true, st2) =>
        match pExpression src f st2 with
        | (st3, .ok thenB) =>
          let st4 := pConsume src .COLON st3
          match pTernary src f st4 with
          | (st5, .ok elseB) =>
            (st5, .ok (.binary .QUESTION e (.binary .COLON thenB elseB)))
          | (st5, .thrown) => (st5, .thrown)
          | (st5, .nofuel) => (st5, .nofuel)
        | (st3, .thrown) => (st3, .thrown)
        | (st3, .nofuel) => (st3, .nofuel)
      | (false, st2) => (st2, .ok e)
    | (st1, .thrown) => (st1, .thrown)
    | (st1, .nofuel) => (st1, .nofuel)

/-- The while loop of `Parser::logic_or`. -/
def pLogicOrLoop (src : List Char) (fuel : Nat) (st : PState) (acc : Expr) :
    PState × PRes Expr :=
  match fuel with
  | 0 => (st, .nofuel)
  | f + 1 =>
    match pMatch src .PIPE_PIPE st with
    | (true, st1) =>
      match pLogicAnd src f st1 with
      | (st2, .ok right) => pLogicOrLoop src f st2 (.binary .PIPE_PIPE acc right)
      | (st2, .thrown) => (st2, .thrown)
      | (st2, .nofuel) => (st2, .nofuel)
    | (false, st1) => (st1, .ok acc)

/-- `Parser::logic_or`. -/
def pLogicOr (src : List Char) (fuel : Nat) (st : PState) : PState × PRes Expr :=
  match fuel with
  | 0 => (st, .nofuel)
  | f + 1 =>
    match pLogicAnd src f st with
    | (st1, .ok e) => pLogicOrLoop src f st1 e
    | (st1, .thrown) => (st1, .thrown)
    | (st1, .nofuel) => (st1, .nofuel)

/-- The while loop of `Parser::logic_and`. -/
def pLogicAndLoop (src : List Char) (fuel : Nat) (st : PState) (acc : Expr) :
    PState × PRes Expr :=
  match fuel with
  | 0 => (st, .nofuel)
  | f + 1 =>
    match pMatch src .AMPERSAND_AMP st with
    | (true, st1) =>
      match pEquality src f st1 with
      | (st2, .ok right) => pLogicAndLoop src f st2 (.binary .AMPERSAND_AMP acc right)
      | (st2, .thrown) => (st2, .thrown)
      | (st2, .nofuel) => (st2, .nofuel)
    | (false, st1) => (st1, .ok acc)

/-- `Parser::logic_and`. -/
def pLogicAnd (src : List Char) (fuel : Nat) (st : PState) : PState × PRes Expr :=
  match fuel with
  | 0 => (st, .nofuel)
  | f + 1 =>
    match pEquality src f st with
    | (st1, .ok e) => pLogicAndLoop src f st1 e
    | (st1, .thrown) => (st1, .thrown)
    | (st1, .nofuel) => (st1, .nofuel)

/-- The while loop of `Parser::equality`. -/
def pEqualityLoop (src : List Char) (fuel : Nat) (st : PState) (acc : Expr) :
    PState × PRes Expr :=
  match fuel with
  | 0 => (st, .nofuel)
  | f + 1 =>
    match pMatchAny src [.EQUAL_EQUAL, .BANG_EQUAL] st with
    | (true, st1) =>
      let op := st1.previous.type
      match pComparison src f st1 with
      | (st2, .ok right) => pEqualityLoop src f st2 (.binary op acc right)
      | (st2, .thrown) => (st2, .thrown)
      | (st2, .nofuel) => (st2, .nofuel)
    | (false, st1) => (st1, .ok acc)

/-- `Parser::equality`. -/
def pEquality (src : List Char) (fuel : Nat) (st : PState) : PState × PRes Expr :=
  match fuel with
  | 0 => (st, .nofuel)
  | f + 1 =>
    match pComparison src f st with
    | (st1, .ok e) => pEqualityLoop src f st1 e
    | (st1, .thrown) => (st1, .thrown)
    | (st1, .nofuel) => (st1, .nofuel)

/-- The while loop of `Parser::comparison`. -/
def pComparisonLoop (src : List Char) (fuel : Nat) (st : PState) (acc : Expr) :
    PState × PRes Expr :=
  match fuel with
  | 0 => (st, .nofuel)
  | f + 1 =>
    match pMatchAny src [.LESS, .LESS_EQUAL, .GREATER, .GREATER_EQUAL] st with
    | (true, st1) =>
      let op := st1.previous.type
      match pTerm src f st1 with
      | (st2, .ok right) => pComparisonLoop src f st2 (.binary op acc right)
      | (st2, .thrown) => (st2, .thrown)
      | (st2, .nofuel) => (st2, .nofuel)
    | (false, st1) => (st1, .ok acc)

/-- `Parser::comparison`. -/
def pComparison (src : List Char) (fuel : Nat) (st : PState) : PState × PRes Expr :=
  match fuel with
  | 0 => (st, .nofuel)
  | f + 1 =>
    match pTerm src f st with
    | (st1, .ok e) => pComparisonLoop src f st1 e
    | (st1, .thrown) => (st1, .thrown)
    | (st1, .nofuel) => (st1, .nofuel)

/-- The while loop of `Parser::term`. -/
def pTermLoop (src : List Char) (fuel : Nat) (st : PState) (acc : Expr) :
    PState × PRes Expr :=
  match fuel with
  | 0 => (st, .nofuel)
  | f + 1 =>
    match pMatchAny src [.PLUS, .MINUS] st with
    | (true, st1) =>
      let op := st1.previous.type
      match pFactor src f st1 with
      | (st2, .ok right) => pTermLoop src f st2 (.binary op acc right)
      | (st2, .thrown) => (st2, .thrown)
      | (st2, .nofuel) => (st2, .nofuel)
    | (false, st1) => (st1, .ok acc)

/-- `Parser::term`. -/
def pTerm (src : List Char) (fuel : Nat) (st : PState) : PState × PRes Expr :=
  match fuel with
  | 0 => (st, .nofuel)
  | f + 1 =>
    match pFactor src f st with
    | (st1, .ok e) => pTermLoop src f st1 e
    | (st1, .thrown) => (st1, .thrown)
    | (st1, .nofuel) => (st1, .nofuel)

/-- The while loop of `Parser::factor`. -/
def pFactorLoop (src : List Char) (fuel : Nat) (st : PState) (acc : Expr) :
    PState × PRes Expr :=
  match fuel with
  | 0 => (st, .nofuel)
  | f + 1 =>
    match pMatchAny src [.STAR, .SLASH, .PERCENT] st with
    | (true, st1) =>
      let op := st1.previous.type
      match pUnary src f st1 with
      | (st2, .ok right) => pFactorLoop src f st2 (.binary op acc right)
      | (st2, .thrown) => (st2, .thrown)
      | (st2, .nofuel) => (st2, .nofuel)
    | (false, st1) => (st1, .ok acc)

/-- `Parser::factor`. -/
def pFactor (src : List Char) (fuel : Nat) (st : PState) : PState × PRes Expr :=
  match fuel with
  | 0 => (st, .nofuel)
  | f + 1 =>
    match pUnary src f st with
    | (st1, .ok e) => pFactorLoop src f st1 e
    | (st1, .thrown) => (st1, .thrown)
    | (st1, .nofuel) => (st1, .nofuel)

/-- `Parser::unary`. -/
def pUnary (src : List Char) (fuel : Nat) (st : PState) : PState × PRes Expr :=
  match fuel with
  | 0 => (st, .nofuel)
  | f + 1 =>
    match pMatchAny src [.BANG, .MINUS, .PLUS_PLUS] st with
    | (true, st1) =>
      let op := st1.previous.type
      match pUnary src f st1 with
      | (st2, .ok operand) => (st2, .ok (.unary op operand))
      | (st2, .thrown) => (st2, .thrown)
      | (st2, .nofuel) => (st2, .nofuel)
    | (false, _) => pPostfixCall src f st

/-- The postfix-call loop of `Parser::call`. -/
def pCallLoop (src : List Char) (fuel : Nat) (st : PState) (acc : Expr) :
    PState × PRes Expr :=
  match fuel with
  | 0 => (st, .nofuel)
  | f + 1 =>
    match pMatch src .LEFT_PAREN st with
    | (true, st1) =>
      match pFinishCall src f acc st1 with
      | (st2, .ok e) => pCallLoop src f st2 e
      | (st2, .thrown) => (st2, .thrown)
      | (st2, .nofuel) => (st2, .nofuel)
    | (false, st1) => (st1, .ok acc)

/-- `Parser::call`. -/
def pPostfixCall (src : List Char) (fuel : Nat) (st : PState) : PState × PRes Expr :=
  match fuel with
  | 0 => (st, .nofuel)
  | f + 1 =>
    match pPrimary src f st with
    | (st1, .ok e) => pCallLoop src f st1 e
    | (st1, .thrown) => (st1, .thrown)
    | (st1, .nofuel) => (st1, .nofuel)

/-- `Parser::finish_call`. -/
def pFinishCall (src : List Char) (fuel : Nat) (callee : Expr) (st : PState) :
    PState × PRes Expr :=
  match fuel with
  | 0 => (st, .nofuel)
  | f + 1 =>
    match pArgList src f st with
    | (st1, .ok args) =>
      let st2 := pConsume src .RIGHT_PAREN st1
      (st2, .ok (.call callee args))
    | (st1, .thrown) => (st1, .thrown)
    | (st1, .nofuel) => (st1, .nofuel)

/-- The do-while loop of `Parser::parse_argument_list`. -/
def pArgLoop (src : List Char) (fuel : Nat) (st : PState) (acc : List Expr) :
    PState × PRes (List Expr) :=
  match fuel with
  | 0 => (st, .nofuel)
  | f + 1 =>
    match pExpression src f st with
    | (st1, .ok e) =>
      match pMatch src .COMMA st1 with
      | (true, st2) => pArgLoop src f st2 (acc ++ [e])
      | (false, st2) => (st2, .ok (acc ++ [e]))
    | (st1, .thrown) => (st1, .thrown)
    | (st1, .nofuel) => (st1, .nofuel)

/-- `Parser::parse_argument_list`. -/
def pArgList (src : List Char) (fuel : Nat) (st : PState) : PState × PRes (List Expr) :=
  match fuel with
  | 0 => (st, .nofuel)
  | f + 1 =>
    if pCheck st .RIGHT_PAREN then (st, .ok []) else pArgLoop src f st []

/-- `Parser::primary`: literals, identifiers and parenthesized groups;
anything else reports "Expect expression" and throws. -/
def pPrimary (src : List Char) (fuel : Nat) (st : PState) : PState × PRes Expr :=
  match fuel with
  | 0 => (st, .nofuel)
  | f + 1 =>
    match pMatch src .FALSE st with
    | (true, st1) => (st1, .ok (.lit .FALSE "false"))
    | (false, _) =>
      match pMatch src .TRUE st with
      | (true, st1) => (st1, .ok (.lit .TRUE "true"))
      | (false, _) =>
        match pMatchAny src [.INT_LITERAL, .FLOAT_LITERAL, .STRING_LITERAL, .CHAR_LITERAL] st with
        | (true, st1) => (st1, .ok (.lit st1.previous.type st1.previous.lexeme))
        | (false, _) =>
          match pMatch src .IDENTIFIER st with
          | (true, st1) => (st1, .ok (.ident st1.previous.lexeme))
          | (false, _) =>
            match pMatch src .LEFT_PAREN st with
            | (true, st1) =>
              match pExpression src f st1 with
              | (st2, .ok e) =>
                let st3 := pConsume src .RIGHT_PAREN st2
                (st3, .ok (.grouping e))
              | (st2, .thrown) => (st2, .thrown)
              | (st2, .nofuel) => (st2, .nofuel)
            | (false, _) => (pError st, .thrown)

end

/-- The top-level loop of `Parser::parse`: repeatedly parse declarations
until end of input, pushing every result (including null results of
failed declarations) into the statement list. -/
def pParseLoop (src : List Char) : Nat → PState → List (Option Stmt) →
    PState × PRes (List (Option Stmt))
  | 0, st, _ => (st, .nofuel)
  | f + 1, st, acc =>
    if st.current.type = .END_OF_FILE then (st, .ok acc)
    else
      match pDeclaration src f st with
      | (st1, .ok d) => pParseLoop src f st1 (acc ++ [d])
      | (st1, .thrown) => (st1, .thrown)
      | (st1, .nofuel) => (st1, .nofuel)

/-- The `Parser` constructor: both token slots start as END_OF_FILE
placeholders and one `advance()` is performed. -/
def mkParser (src : List Char) : PState :=
  pAdvance src ⟨lexInit, ⟨.END_OF_FILE, "", 0, 0⟩, ⟨.END_OF_FILE, "", 0, 0⟩, 0, false⟩

/-- `Parser::parse` on a source string, with fuel. -/
def parseProgram (src : List Char) (fuel : Nat) : PState × PRes (List (Option Stmt)) :=
  pParseLoop src fuel (mkParser src) []

/-- `Parser::had_error`. -/
def hadError (st : PState) : Bool := decide (0 < st.errorCount)

/-! ## Code generator

`codegen.cpp` lowers the AST into an LLVM module.  The IR is modelled
shallowly: a module is a list of function signatures, basic blocks live in
a store recording their parent function (in LLVM insertion order), and
instructions are a small inductive.  `LOG_ERROR` calls are collected in an
error list (they are non-fatal).  The LLVM context/builder machinery is
represented by fresh-id counters and an insertion point. -/

/-- LLVM types used by `CodeGenerator::get_llvm_type`. -/
inductive LTy where
  | i (width : Nat)
  | fl
  | dbl
  | void
  | ptr
deriving DecidableEq, Repr

/-- `CodeGenerator::get_llvm_type` (unsigned kinds share the integer
widths; the default case is i32). -/
def getLLVMType : TokenType → LTy
  | .I8 => .i 8
  | .I16 => .i 16
  | .I32 => .i 32
  | .I64 => .i 64
  | .U8 => .i 8
  | .U16 => .i 16
  | .U32 => .i 32
  | .U64 => .i 64
  | .F32 => .fl
  | .F64 => .dbl
  | .BOOL => .i 1
  | .VOID => .void
  | _ => .i 32

/-- LLVM values: integer/float constants, instruction results, incoming
function arguments, and functions-as-values.  Float constants carry the
raw literal text (the generator never computes with them). -/
inductive Val where
  | cint (width : Nat) (n : Int)
  | cfloat (isDouble : Bool) (txt : String)
  | reg (n : Nat) (ty : LTy)
  | farg (idx : Nat) (ty : LTy)
  | funcv (name : String)
deriving DecidableEq, Repr

/-- The LLVM type of a value. -/
def valTy : Val → LTy
  | .cint w _ => .i w
  | .cfloat d _ => if d then .dbl else .fl
  | .reg _ t => t
  | .farg _ t => t
  | .funcv _ => .ptr

/-- `Type::isIntegerTy` of a possibly null value (the C++ code calls it on
`current_value` results; a null here is undefined behaviour in the source,
modelled as the default i32). -/
def optIsIntTy (v : Option Val) : Bool :=
  match v with
  | some v => match valTy v with | .i _ => true | _ => false
  | none => true

/-- `std::stoi` on the literal texts produced by the lexer: an optional
sign followed by the longest decimal-digit prefix. -/
def digitsVal : List Char → Int → Int
  | c :: rest, acc =>
      if isDigit c then digitsVal rest (acc * 10 + (c.toNat - '0'.toNat : Int)) else acc
  | [], acc => acc

/-- `std::stoi` model. -/
def stoiModel (s : String) : Int :=
  match s.toList with
  | '-' :: rest => -(digitsVal rest 0)
  | '+' :: rest => digitsVal rest 0
  | l => digitsVal l 0

/-- Arithmetic instruction families chosen by `visit(BinaryExpr&)`. -/
inductive BinOp where
  | add | sub | mul | sdiv | fadd | fsub | fmul | fdiv
deriving DecidableEq, Repr

/-- IR instructions (branch targets are block ids). -/
inductive Instr where
  | alloca (res : Nat) (ty : LTy) (name : String)
  | store (v : Option Val) (ptr : Option Val)
  | load (res : Nat) (ty : LTy) (ptr : Val) (name : String)
  | binop (res : Nat) (op : BinOp) (l r : Option Val) (name : String)
  | negI (res : Nat) (isFloat : Bool) (v : Option Val)
  | notI (res : Nat) (v : Option Val)
  | callI (res : Nat) (callee : String) (args : List (Option Val))
  | br (target : Nat)
  | condbr (cond : Option Val) (ifTrue ifFalse : Nat)
  | retI (v : Option Val)
  | retVoid
deriving DecidableEq, Repr

/-- Whether an instruction is a block terminator. -/
def isTerminator : Instr → Bool
  | .br _ => true
  | .condbr _ _ _ => true
  | .retI _ => true
  | .retVoid => true
  | _ => false

/-- A basic block: id, label, parent function (none while detached), and
its instruction list. -/
structure BBlock where
  id : Nat
  name : String
  parent : Option String
  instrs : List Instr
deriving DecidableEq, Repr

/-- `BasicBlock::getTerminator() != nullptr` (the generator only inspects
the last instruction of the block it just finished). -/
def hasTerminator (b : BBlock) : Bool :=
  match b.instrs.getLast? with
  | some i => isTerminator i
  | none => false

/-- A module-level function signature created by `Function::Create`. -/
structure Fn where
  name : String
  retTy : LTy
  params : List (String × LTy)
deriving DecidableEq, Repr

/-- An entry of `named_values`: the alloca register and its allocated
type. -/
structure AllocaRef where
  reg : Nat
  allocTy : LTy
deriving DecidableEq, Repr

/-- Lookup in `named_values`. -/
def nvLookup (nv : List (String × AllocaRef)) (n : String) : Option AllocaRef :=
  match nv.find? (fun p => p.1 = n) with
  | some p => some p.2
  | none => none

/-- `named_values[name] = alloca` (`std::map::operator[]` overwrites). -/
def nvInsert (nv : List (String × AllocaRef)) (n : String) (a : AllocaRef) :
    List (String × AllocaRef) :=
  if (nv.find? (fun p => p.1 = n)).isSome then
    nv.map (fun p => if p.1 = n then (n, a) else p)
  else nv ++ [(n, a)]

/-- Mutable code-generator state during lowering: the block store
(attached blocks in LLVM insertion order, plus detached blocks), fresh-id
counters, `named_values`, `current_value`, `current_function`, the builder
insertion point, and the collected `LOG_ERROR` messages.  The module
function list is fixed by the prototype pre-pass and passed separately. -/
structure CG where
  blocks : List BBlock
  detached : List BBlock
  nextBlock : Nat
  nextReg : Nat
  namedValues : List (String × AllocaRef)
  currentValue : Option Val
  currentFunction : Option String
  insertPt : Option Nat
  errors : List String
deriving Repr

/-- The initial code-generator state. -/
def cgInit : CG := ⟨[], [], 0, 0, [], none, none, none, []⟩

/-- Append an instruction to the insertion-point block (no insertion point
is undefined behaviour in the source; modelled as a no-op). -/
def emit (cg : CG) (ins : Instr) : CG :=
  match cg.insertPt with
  | some bid =>
    { cg with
      blocks := cg.blocks.map fun b =>
        if b.id = bid then { b with instrs := b.instrs ++ [ins] } else b
      detached := cg.detached.map fun b =>
        if b.id = bid then { b with instrs := b.instrs ++ [ins] } else b }
  | none => cg

/-- `BasicBlock::Create` with a parent function: appended to the store. -/
def newBlock (cg : CG) (name : String) (parent : Option String) : Nat × CG :=
  (cg.nextBlock,
   { cg with
     blocks := cg.blocks ++ [⟨cg.nextBlock, name, parent, []⟩]
     nextBlock := cg.nextBlock + 1 })

/-- `BasicBlock::Create` without a parent: kept detached. -/
def newDetached (cg : CG) (name : String) : Nat × CG :=
  (cg.nextBlock,
   { cg with
     detached := cg.detached ++ [⟨cg.nextBlock, name, none, []⟩]
     nextBlock := cg.nextBlock + 1 })

/-- `builder.SetInsertPoint`. -/
def setIP (cg : CG) (bid : Nat) : CG := { cg with insertPt := some bid }

/-- `function->insert(function->end(), block)`: attach a detached block at
the end of the function (append to the store). -/
def fnInsert (cg : CG) (parent : Option String) (bid : Nat) : CG :=
  match cg.detached.find? (fun b => b.id = bid) with
  | some b =>
    { cg with
      detached := cg.detached.filter (fun b2 => b2.id ≠ bid)
      blocks := cg.blocks ++ [{ b with parent := parent }] }
  | none => cg

/-- `builder.GetInsertBlock()->getParent()`: the parent function of the
insertion-point block. -/
def insertParent (cg : CG) : Option String :=
  match cg.insertPt with
  | some bid =>
    match (cg.blocks ++ cg.detached).find? (fun b => b.id = bid) with
    | some b => b.parent
    | none => none
  | none => none

/-- A fresh SSA register id. -/
def freshReg (cg : CG) : Nat × CG := (cg.nextReg, { cg with nextReg := cg.nextReg + 1 })

/-- The attached blocks of a function, in insertion order. -/
def funcBlocks (cg : CG) (fname : String) : List BBlock :=
  cg.blocks.filter (fun b => b.parent = some fname)

/-- Record a `LOG_ERROR` diagnostic. -/
def cgError (cg : CG) (msg : String) : CG := { cg with errors := cg.errors ++ [msg] }

/-- `Function::Create` result for a FunctionDecl in the prototype pre-pass
(parameter names are set from the declaration). -/
def fnOfDecl (name : String) (params : List (String × TokenType)) (retType : TokenType) : Fn :=
  ⟨if name = "main" then "sleaf_main" else name,
   getLLVMType retType,
   params.map (fun p => (p.1, getLLVMType p.2))⟩

/-- The prototype pre-pass of `CodeGenerator::generate`: declare every
top-level FunctionDecl (renaming a user `main` to `sleaf_main`), and
record whether a user `main` existed. -/
def prepass (stmts : List Stmt) : List Fn × Bool :=
  stmts.foldl
    (fun acc s =>
      match s with
      | .funcDecl name params retType _ =>
        (acc.1 ++ [fnOfDecl name params retType], acc.2 || decide (name = "main"))
      | _ => acc)
    ([], false)

/-- Parameter setup in `visit(FunctionDecl&)`: for each incoming argument,
allocate a stack slot named after it, store the argument, and bind it. -/
def cgParams (funcName : String) (params : List (String × LTy)) (idx : Nat) (cg : CG) : CG :=
  match params with
  | [] => cg
  | (pname, pty) :: rest =>
    let fr := freshReg cg
    let cg1 := emit fr.2 (.alloca fr.1 pty pname)
    let cg2 := emit cg1 (.store (some (.farg idx pty)) (some (.reg fr.1 .ptr)))
    let cg3 := { cg2 with namedValues := nvInsert cg2.namedValues pname ⟨fr.1, pty⟩ }
    cgParams funcName rest (idx + 1) cg3

mutual

/-- `CodeGenerator` expression visits: each sets `current_value`.
A `dyn_cast` of a null value (undefined behaviour in the source) is
modelled as taking the failing branch. -/
def cgExpr (module : List Fn) : Expr → CG → CG
  | .lit t v, cg =>
    match t with
    | .INT_LITERAL => { cg with currentValue := some (.cint 32 (stoiModel v)) }
    | .FLOAT_LITERAL => { cg with currentValue := some (.cfloat false v) }
    | .F64 => { cg with currentValue := some (.cfloat true v) }
    | .TRUE => { cg with currentValue := some (.cint 1 1) }
    | .FALSE => { cg with currentValue := some (.cint 1 0) }
    | _ => { cg with currentValue := some (.cint 32 0) }
  | .grouping e, cg => cgExpr module e cg
  | .ident name, cg =>
    match nvLookup cg.namedValues name with
    | some a =>
      let r := freshReg cg
      let cg1 := emit r.2 (.load r.1 a.allocTy (.reg a.reg .ptr) name)
      { cg1 with currentValue := some (.reg r.1 a.allocTy) }
    | none =>
      { cgError cg ("Unknown variable: " ++ name) with currentValue := none }
  | .binary op l r, cg =>
    let cg1 := cgExpr module l cg
    let left := cg1.currentValue
    let cg2 := cgExpr module r cg1
    let right := cg2.currentValue
    let mk := fun (bop : BinOp) (nm : String) (cgX : CG) =>
      let fr := freshReg cgX
      let cgY := emit fr.2 (.binop fr.1 bop left right nm)
      { cgY with currentValue := some (.reg fr.1 (match left with
          | some v => valTy v
          | none => .i 32)) }
    match op with
    | .PLUS =>
      if optIsIntTy left && optIsIntTy right then mk .add "addtmp" cg2
      else mk .fadd "faddtmp" cg2
    | .MINUS =>
      if optIsIntTy left && optIsIntTy right then mk .sub "subtmp" cg2
      else mk .fsub "fsubtmp" cg2
    | .STAR =>
      if optIsIntTy left && optIsIntTy right then mk .mul "multmp" cg2
      else mk .fmul "fmultmp" cg2
    | .SLASH =>
      if optIsIntTy left && optIsIntTy right then mk .sdiv "divtmp" cg2
      else mk .fdiv "fdivtmp" cg2
    | _ => { cg2 with currentValue := none }
  | .unary op e, cg =>
    let cg1 := cgExpr module e cg
    let operand := cg1.currentValue
    match op with
    | .MINUS =>
      let fr := freshReg cg1
      let isInt := optIsIntTy operand
      let cg2 := emit fr.2 (.negI fr.1 (!isInt) operand)
      { cg2 with currentValue := some (.reg fr.1 (match operand with
          | some v => valTy v
          | none => .i 32)) }
    | .BANG =>
      let fr := freshReg cg1
      let cg2 := emit fr.2 (.notI fr.1 operand)
      { cg2 with currentValue := some (.reg fr.1 (match operand with
          | some v => valTy v
          | none => .i 32)) }
    | _ => { cg1 with currentValue := none }
  | .assign _ target value, cg =>
    let cg1 := cgExpr module value cg
    let v := cg1.currentValue
    match target with
    | .ident name =>
      match nvLookup cg1.namedValues name with
      | some a =>
        let cg2 := emit cg1 (.store v (some (.reg a.reg .ptr)))
        { cg2 with currentValue := v }
      | none => cgError cg1 ("Undefined variable: " ++ name)
    | _ => cgError cg1 "Invalid assignment target"
  | .call callee args, cg =>
    let r := cgExprArgs module args cg []
    let cg1 := cgExpr module callee r.2
    match cg1.currentValue with
    | some (.funcv fname) =>
      let retTy :=
        match module.find? (fun f => f.name = fname) with
        | some f => f.retTy
        | none => .void
      let fr := freshReg cg1
      let cg2 := emit fr.2 (.callI fr.1 fname r.1)
      { cg2 with currentValue := some (.reg fr.1 retTy) }
    | _ => cgError cg1 "Call to non-function"

/-- Left-to-right evaluation of call arguments, collecting each
`current_value`. -/
def cgExprArgs (module : List Fn) :
    List Expr → CG → List (Option Val) → List (Option Val) × CG
  | [], cg, acc => (acc, cg)
  | a :: rest, cg, acc =>
    let cg1 := cgExpr module a cg
    cgExprArgs module rest cg1 (acc ++ [cg1.currentValue])

/-- `CodeGenerator` statement visits. -/
def cgStmt (module : List Fn) : Stmt → CG → CG
  | .block stmts, cg => cgStmtList module stmts cg
  | .funcDecl name _ retType body, cg =>
    let funcName := if name = "main" then "sleaf_main" else name
    match module.find? (fun f => f.name = funcName) with
    | none => cgError cg ("Function not declared: " ++ funcName)
    | some f =>
      let cg1 := { cg with currentFunction := some funcName }
      let eb := newBlock cg1 "entry" (some funcName)
      let cg2 := setIP eb.2 eb.1
      let cg3 := { cg2 with namedValues := [] }
      let cg4 := cgParams funcName f.params 0 cg3
      let cg5 := cgStmtList module body cg4
      let cg6 :=
        match (funcBlocks cg5 funcName).getLast? with
        | some b =>
          if hasTerminator b then cg5
          else if retType = TokenType.VOID then emit cg5 .retVoid
          else cgError cg5 ("Function " ++ funcName ++ " does not return a value")
        | none => cg5
      { cg6 with currentFunction := none }
  | .varDecl varType name init _, cg =>
    match init with
    | some e =>
      let cg1 := cgExpr module e cg
      let v := cg1.currentValue
      let lty := getLLVMType varType
      let fr := freshReg cg1
      let cg2 := emit fr.2 (.alloca fr.1 lty name)
      let cg3 := emit cg2 (.store v (some (.reg fr.1 .ptr)))
      { cg3 with namedValues := nvInsert cg3.namedValues name ⟨fr.1, lty⟩ }
    | none => cg
  | .ifS cond thenBranch elseBranch, cg =>
    let cg1 := cgExpr module cond cg
    let cv := cg1.currentValue
    let parent := insertParent cg1
    let tb := newBlock cg1 "then" parent
    let eb := newDetached tb.2 "else"
    let mb := newDetached eb.2 "ifcont"
    let cg5 := emit mb.2 (.condbr cv tb.1 eb.1)
    let cg6 := setIP cg5 tb.1
    let cg7 := cgStmt module thenBranch cg6
    let cg8 := emit cg7 (.br mb.1)
    let cg9 := fnInsert cg8 parent eb.1
    let cg10 := setIP cg9 eb.1
    let cg11 :=
      match elseBranch with
      | some e => cgStmt module e cg10
      | none => cg10
    let cg12 := emit cg11 (.br mb.1)
    let cg13 := fnInsert cg12 parent mb.1
    setIP cg13 mb.1
  | .whileS cond body, cg =>
    let parent := insertParent cg
    let cb := newBlock cg "loop_cond" parent
    let bb := newBlock cb.2 "loop_body" parent
    let ab := newBlock bb.2 "after_loop" parent
    let cg1 := emit ab.2 (.br cb.1)
    let cg2 := setIP cg1 cb.1
    let cg3 := cgExpr module cond cg2
    let cv := cg3.currentValue
    let cg4 := emit cg3 (.condbr cv bb.1 ab.1)
    let cg5 := setIP cg4 bb.1
    let cg6 := cgStmt module body cg5
    let cg7 := emit cg6 (.br cb.1)
    setIP cg7 ab.1
  | .forS init cond incr body, cg =>
    let cg0 :=
      match init with
      | some s => cgStmt module s cg
      | none => cg
    let parent := insertParent cg0
    let cb := newBlock cg0 "loop_cond" parent
    let bb := newBlock cb.2 "loop_body" parent
    let ab := newBlock bb.2 "after_loop" parent
    let cg1 := emit ab.2 (.br cb.1)
    let cg2 := setIP cg1 cb.1
    let cg3 :=
      match cond with
      | some c =>
        let cgc := cgExpr module c cg2
        emit cgc (.condbr cgc.currentValue bb.1 ab.1)
      | none => emit cg2 (.br bb.1)
    let cg4 := setIP cg3 bb.1
    let cg5 := cgStmt module body cg4
    let cg6 :=
      match incr with
      | some i => cgExpr module i cg5
      | none => cg5
    let cg7 := emit cg6 (.br cb.1)
    setIP cg7 ab.1
  | .ret value, cg =>
    match value with
    | some e =>
      let cg1 := cgExpr module e cg
      emit cg1 (.retI cg1.currentValue)
    | none => emit cg .retVoid
  | .exprStmt e, cg => cgExpr module e cg

/-- `visit(BlockStmt&)`: lower children in order.  A null child is a null
pointer dereference in the source (unreachable for error-free parses);
modelled as a no-op. -/
def cgStmtList (module : List Fn) : List (Option Stmt) → CG → CG
  | [], cg => cg
  | none :: rest, cg => cgStmtList module rest cg
  | some s :: rest, cg => cgStmtList module rest (cgStmt module s cg)

end

/-- Result of `CodeGenerator::generate`: the module function list, the
final generator state, and the `has_main_function` flag. -/
structure GenResult where
  module : List Fn
  cg : CG
  hasMain : Bool
deriving Repr

/-- `CodeGenerator::generate_main_wrapper`: synthesize `main(i32, i8**)`;
its entry block calls `sleaf_main` and returns the result. -/
def generateMainWrapper (module : List Fn) (cg : CG) : List Fn × CG :=
  let module1 := module ++ [⟨"main", .i 32, [("", .i 32), ("", .ptr)]⟩]
  let eb := newBlock cg "entry" (some "main")
  let cg1 := setIP eb.2 eb.1
  match module.find? (fun f => f.name = "sleaf_main") with
  | none => (module1, cgError cg1 "sleaf_main not found")
  | some f =>
    let fr := freshReg cg1
    let cg2 := emit fr.2 (.callI fr.1 "sleaf_main" [])
    let cg3 := emit cg2 (.retI (some (.reg fr.1 f.retTy)))
    (module1, cg3)

/-- `CodeGenerator::generate`: the prototype pre-pass, then the body
lowering pass, then entry-point synthesis when a user `main` existed.
`generate` is only reached for error-free parses, whose statement lists
contain no null entries, so it takes a `List Stmt`. -/
def generate (stmts : List Stmt) : GenResult :=
  let pre := prepass stmts
  let cg1 := stmts.foldl (fun cg s => cgStmt pre.1 s cg) cgInit
  if pre.2 then
    let r := generateMainWrapper pre.1 cg1
    ⟨r.1, r.2, true⟩
  else ⟨pre.1, cg1, false⟩

/-! ## Token-stream iteration and the lexer-mode dump (`main.cpp`) -/

/-- Iterate `scan_token` n times, keeping only the state. -/
def scanIter (src : List Char) : Nat → LexSt → LexSt
  | 0, st => st
  | n + 1, st => scanIter src n (scanToken src st).2

/-- The token stream from a state: repeated `scan_token` up to and
including the first END_OF_FILE token, with fuel (one non-EOF token
consumes at least one character, so `src.length + 1` suffices). -/
def tokensUpTo (src : List Char) : Nat → LexSt → List Token
  | 0, _ => []
  | f + 1, st =>
    let r := scanToken src st
    if r.1.type = .END_OF_FILE then [r.1] else r.1 :: tokensUpTo src f r.2

/-- The full token stream of a source string. -/
def tokensOf (src : List Char) : List Token :=
  tokensUpTo src (src.length + 1) lexInit

/-- `std::setw(w)` (right alignment) for a field already rendered. -/
def padLeftTo (w : Nat) (s : String) : String :=
  if s.length < w then String.mk (List.replicate (w - s.length) ' ') ++ s else s

/-- `std::setw(w) << std::left`. -/
def padRightTo (w : Nat) (s : String) : String :=
  if s.length < w then s ++ String.mk (List.replicate (w - s.length) ' ') else s

/-- `Token::type_name`. -/
def typeName : TokenType → String
  | .FUNC => "FUNC"
  | .RETURN => "RETURN"
  | .I8 => "I8"
  | .I16 => "I16"
  | .I32 => "I32"
  | .I64 => "I64"
  | .U8 => "U8"
  | .U16 => "U16"
  | .U32 => "U32"
  | .U64 => "U64"
  | .F32 => "F32"
  | .F64 => "F64"
  | .BOOL => "BOOL"
  | .STRING => "STRING"
  | .CHAR => "CHAR"
  | .VOID => "VOID"
  | .IF => "IF"
  | .ELSE => "ELSE"
  | .WHILE => "WHILE"
  | .FOR => "FOR"
  | .STRUCT => "STRUCT"
  | .IMPORT => "IMPORT"
  | .CONST => "CONST"
  | .VAR => "VAR"
  | .TRUE => "TRUE"
  | .FALSE => "FALSE"
  | .IDENTIFIER => "IDENTIFIER"
  | .INT_LITERAL => "INT_LITERAL"
  | .FLOAT_LITERAL => "FLOAT_LITERAL"
  | .STRING_LITERAL => "STRING_LITERAL"
  | .CHAR_LITERAL => "CHAR_LITERAL"
  | .PLUS => "PLUS"
  | .MINUS => "MINUS"
  | .STAR => "STAR"
  | .SLASH => "SLASH"
  | .PERCENT => "PERCENT"
  | .EQUAL => "EQUAL"
  | .EQUAL_EQUAL => "EQUAL_EQUAL"
  | .BANG => "BANG"
  | .BANG_EQUAL => "BANG_EQUAL"
  | .LESS => "LESS"
  | .LESS_EQUAL => "LESS_EQUAL"
  | .GREATER => "GREATER"
  | .GREATER_EQUAL => "GREATER_EQUAL"
  | .AMPERSAND => "AMPERSAND"
  | .AMPERSAND_AMP => "AMPERSAND_AMP"
  | .PIPE => "PIPE"
  | .PIPE_PIPE => "PIPE_PIPE"
  | .ARROW => "ARROW"
  | .PLUS_PLUS => "PLUS_PLUS"
  | .PLUS_EQUAL => "PLUS_EQUAL"
  | .LEFT_PAREN => "LEFT_PAREN"
  | .RIGHT_PAREN => "RIGHT_PAREN"
  | .LEFT_BRACE => "LEFT_BRACE"
  | .RIGHT_BRACE => "RIGHT_BRACE"
  | .LEFT_BRACKET => "LEFT_BRACKET"
  | .RIGHT_BRACKET => "RIGHT_BRACKET"
  | .COMMA => "COMMA"
  | .SEMICOLON => "SEMICOLON"
  | .COLON => "COLON"
  | .DOT => "DOT"
  | .QUESTION => "QUESTION"
  | .END_OF_FILE => "END_OF_FILE"
  | .ERROR => "ERROR"

/-- `format_token` in `main.cpp`:
`"[" << setw(3) << line << ":" << setw(3) << column << "] " << setw(20)
<< left << type_name << " '" << lexeme << "'"`. -/
def formatToken (t : Token) : String :=
  "[" ++ padLeftTo 3 (toString t.line) ++ ":" ++ padLeftTo 3 (toString t.column) ++ "] "
    ++ padRightTo 20 (typeName t.type) ++ " '" ++ t.lexeme ++ "'"

/-- The loop of `run_lexer`: print each token; stop (without notice) on
END_OF_FILE; after printing, stop with the "Token limit exceeded" notice
once the incremented count exceeds `MAX_TOKEN_COUNT = 500`.  Returns the
printed token lines and whether the notice was printed.  The count cap
bounds the loop at 501 recursive steps, so fuel 502 is always enough. -/
def runLexerLoop (src : List Char) : Nat → LexSt → Nat → List String × Bool
  | 0, _, _ => ([], false)
  | f + 1, st, count =>
    let r := scanToken src st
    let line := formatToken r.1
    if r.1.type = .END_OF_FILE then ([line], false)
    else if 500 < count + 1 then ([line], true)
    else
      let rest := runLexerLoop src f r.2 (count + 1)
      (line :: rest.1, rest.2)

/-- `run_lexer`'s token dump on a source string. -/
def runLexer (src : List Char) : List String × Bool :=
  runLexerLoop src 502 lexInit 0

/-! ## Auxiliary observations used by the theorems -/

/-- Whether an instruction is a call instruction. -/
def isCallInstr : Instr → Bool
  | .callI _ _ _ => true
  | _ => false

/-- The declared name of a top-level FunctionDecl statement. -/
def declFuncName : Stmt → Option String
  | .funcDecl n _ _ _ => some n
  | _ => none

/-- Whether a statement list contains a FunctionDecl named "main". -/
def containsMainDecl (stmts : List Stmt) : Bool :=
  stmts.any fun s =>
    match s with
    | .funcDecl n _ _ _ => decide (n = "main")
    | _ => false

/-- Invariant maintained during the body-lowering phase: no block (attached
or detached) belongs to a function named "main", and all block ids are
below the fresh-id counter. -/
def cgOkMain (cg : CG) : Prop :=
  (∀ b ∈ cg.blocks, b.parent ≠ some "main" ∧ b.id < cg.nextBlock) ∧
  (∀ b ∈ cg.detached, b.parent ≠ some "main" ∧ b.id < cg.nextBlock)

/-- A declared function `f` with an empty body. -/
def declF : Stmt := .funcDecl "f" [] .VOID []

/-- A function `g` whose body is the single call expression `f()`. -/
def declG : Stmt := .funcDecl "g" [] .VOID [some (.exprStmt (.call (.ident "f") []))]

/-! ## Lexer lemmas: the cursor never moves backwards -/

theorem adv_cur_le (src : List Char) (st : LexSt) : st.cur ≤ (adv src st).cur := by
  unfold adv
  split
  · split <;> simp
  · exact le_refl _

theorem adv_cur_of_lt (src : List Char) (st : LexSt) (h : st.cur < src.length) :
    (adv src st).cur = st.cur + 1 := by
  unfold adv
  rw [if_pos h]
  split <;> rfl

theorem adv_of_ge (src : List Char) (st : LexSt) (h : ¬ st.cur < src.length) :
    adv src st = st := by
  unfold adv
  rw [if_neg h]

theorem mtch_cur_le (src : List Char) (c : Char) (st : LexSt) :
    st.cur ≤ (mtch src c st).2.cur := by
  unfold mtch
  split
  · split
    · exact adv_cur_le src st
    · exact le_refl _
  · exact le_refl _

theorem skipWhitespaceF_cur_le (src : List Char) :
    ∀ (fuel : Nat) (st : LexSt), st.cur ≤ (skipWhitespaceF src fuel st).cur := by
  intro fuel
  induction fuel with
  | zero => intro st; exact le_refl _
  | succ f ih =>
    intro st
    simp only [skipWhitespaceF]
    split
    · split
      · exact le_trans (adv_cur_le src st) (ih (adv src st))
      · exact le_refl _
    · exact le_refl _

theorem skipWhitespace_cur_le (src : List Char) (st : LexSt) :
    st.cur ≤ (skipWhitespace src st).cur :=
  skipWhitespaceF_cur_le src (src.length + 1) st

theorem skipWhitespaceF_of_ge (src : List Char) (fuel : Nat) (st : LexSt)
    (h : ¬ st.cur < src.length) : skipWhitespaceF src fuel st = st := by
  cases fuel with
  | zero => rfl
  | succ f =>
    simp only [skipWhitespaceF]
    rw [if_neg h]

theorem skipWhitespace_of_ge (src : List Char) (st : LexSt) (h : ¬ st.cur < src.length) :
    skipWhitespace src st = st :=
  skipWhitespaceF_of_ge src (src.length + 1) st h

theorem skipLineCommentF_cur_le (src : List Char) :
    ∀ (fuel : Nat) (st : LexSt), st.cur ≤ (skipLineCommentF src fuel st).cur := by
  intro fuel
  induction fuel with
  | zero => intro st; exact le_refl _
  | succ f ih =>
    intro st
    simp only [skipLineCommentF]
    split
    · split
      · exact le_refl _
      · exact le_trans (adv_cur_le src st) (ih (adv src st))
    · exact le_refl _

theorem skipLineComment_cur_le (src : List Char) (st : LexSt) :
    st.cur ≤ (skipLineComment src st).cur :=
  skipLineCommentF_cur_le src (src.length + 1) st

theorem skipBlockCommentF_cur_le (src : List Char) :
    ∀ (fuel : Nat) (st : LexSt), st.cur ≤ (skipBlockCommentF src fuel st).cur := by
  intro fuel
  induction fuel with
  | zero => intro st; exact le_refl _
  | succ f ih =>
    intro st
    simp only [skipBlockCommentF]
    split
    · split
      · exact le_trans (adv_cur_le src st) (adv_cur_le src (adv src st))
      · exact le_trans (adv_cur_le src st) (ih (adv src st))
    · exact le_refl _

theorem skipBlockComment_cur_le (src : List Char) (st : LexSt) :
    st.cur ≤ (skipBlockComment src st).cur :=
  skipBlockCommentF_cur_le src (src.length + 1) st

theorem scanIdentLoopF_cur_le (src : List Char) :
    ∀ (fuel : Nat) (st : LexSt), st.cur ≤ (scanIdentLoopF src fuel st).cur := by
  intro fuel
  induction fuel with
  | zero => intro st; exact le_refl _
  | succ f ih =>
    intro st
    simp only [scanIdentLoopF]
    split
    · exact le_trans (adv_cur_le src st) (ih (adv src st))
    · exact le_refl _

theorem scanIdentLoop_cur_le (src : List Char) (st : LexSt) :
    st.cur ≤ (scanIdentLoop src st).cur :=
  scanIdentLoopF_cur_le src (src.length + 1) st

theorem expDigitsF_cur_le (src : List Char) :
    ∀ (fuel : Nat) (st : LexSt), st.cur ≤ (expDigitsF src fuel st).cur := by
  intro fuel
  induction fuel with
  | zero => intro st; exact le_refl _
  | succ f ih =>
    intro st
    simp only [expDigitsF]
    split
    · exact le_trans (adv_cur_le src st) (ih (adv src st))
    · exact le_refl _

theorem expDigits_cur_le (src : List Char) (st : LexSt) :
    st.cur ≤ (expDigits src st).cur :=
  expDigitsF_cur_le src (src.length + 1) st

theorem scanStringLoopF_cur_le (src : List Char) :
    ∀ (fuel : Nat) (st : LexSt), st.cur ≤ (scanStringLoopF src fuel st).cur := by
  intro fuel
  induction fuel with
  | zero => intro st; exact le_refl _
  | succ f ih =>
    intro st
    simp only [scanStringLoopF]
    split
    · split
      · exact le_refl _
      · split
        · exact le_trans (adv_cur_le src st)
            (le_trans (adv_cur_le src (adv src st)) (ih (adv src (adv src st))))
        · exact le_trans (adv_cur_le src st) (ih (adv src st))
    · exact le_refl _

theorem scanStringLoop_cur_le (src : List Char) (st : LexSt) :
    st.cur ≤ (scanStringLoop src st).cur :=
  scanStringLoopF_cur_le src (src.length + 1) st

theorem scanNumberLoopF_done_cur_le (src : List Char) :
    ∀ (fuel : Nat) (isF isH isB : Bool) (st stO : LexSt) (b : Bool),
      scanNumberLoopF src fuel isF isH isB st = .done b stO → st.cur ≤ stO.cur := by
  intro fuel
  induction fuel with
  | zero =>
    intro isF isH isB st stO b heq
    cases heq
    exact le_refl _
  | succ f ih =>
    intro isF isH isB st stO b heq
    simp only [scanNumberLoopF] at heq
    repeat' split at heq
    all_goals first
      | (cases heq; exact le_refl _)
      | cases heq
      | exact le_trans (adv_cur_le src st) (ih _ _ _ _ _ _ heq)

theorem scanNumberLoop_done_cur_le (src : List Char) (isF isH isB : Bool) (st stO : LexSt)
    (b : Bool) (heq : scanNumberLoop src isF isH isB st = .done b stO) : st.cur ≤ stO.cur :=
  scanNumberLoopF_done_cur_le src (src.length + 1) isF isH isB st stO b heq

theorem scanNumberLoopF_bad_cur_le (src : List Char) :
    ∀ (fuel : Nat) (isF isH isB : Bool) (st stO : LexSt),
      scanNumberLoopF src fuel isF isH isB st = .bad stO → st.cur ≤ stO.cur := by
  intro fuel
  induction fuel with
  | zero =>
    intro isF isH isB st stO heq
    cases heq
  | succ f ih =>
    intro isF isH isB st stO heq
    simp only [scanNumberLoopF] at heq
    repeat' split at heq
    all_goals first
      | (cases heq; exact le_refl _)
      | cases heq
      | exact le_trans (adv_cur_le src st) (ih _ _ _ _ _ heq)

theorem scanNumberLoop_bad_cur_le (src : List Char) (isF isH isB : Bool) (st stO : LexSt)
    (heq : scanNumberLoop src isF isH isB st = .bad stO) : st.cur ≤ stO.cur :=
  scanNumberLoopF_bad_cur_le src (src.length + 1) isF isH isB st stO heq

theorem scanNumberGo_cur_le (src : List Char) (isH isB : Bool) (st : LexSt) :
    st.cur ≤ (scanNumberGo src isH isB st).2.cur := by
  simp only [scanNumberGo]
  split
  · rename_i st2 heq
    exact scanNumberLoop_bad_cur_le src false isH isB st st2 heq
  · rename_i isF st2 heq
    have h1 := scanNumberLoop_done_cur_le src false isH isB st st2 isF heq
    split
    · refine le_trans h1 (le_trans (adv_cur_le src st2) (le_trans ?_ (expDigits_cur_le src _)))
      split
      · exact adv_cur_le src _
      · exact le_refl _
    · exact h1

theorem scanNumber_cur_le (src : List Char) (st : LexSt) :
    st.cur ≤ (scanNumber src st).2.cur := by
  simp only [scanNumber]
  split
  · exact le_trans (adv_cur_le src st) (scanNumberGo_cur_le src true false (adv src st))
  · split
    · exact le_trans (adv_cur_le src st) (scanNumberGo_cur_le src false true (adv src st))
    · exact scanNumberGo_cur_le src false false st

theorem scanIdentifier_cur_le (src : List Char) (st : LexSt) :
    st.cur ≤ (scanIdentifier src st).2.cur := by
  simp only [scanIdentifier]
  split <;> exact scanIdentLoop_cur_le src st

theorem scanString_cur_le (src : List Char) (st : LexSt) :
    st.cur ≤ (scanString src st).2.cur := by
  simp only [scanString]
  split
  · exact scanStringLoop_cur_le src st
  · exact le_trans (scanStringLoop_cur_le src st) (adv_cur_le src _)

theorem scanCharClose_cur_le (src : List Char) (st : LexSt) :
    st.cur ≤ (scanCharClose src st).2.cur := by
  simp only [scanCharClose]
  split
  · exact le_refl _
  · exact adv_cur_le src st

theorem scanChar_cur_le (src : List Char) (st : LexSt) :
    st.cur ≤ (scanChar src st).2.cur := by
  simp only [scanChar]
  split
  · exact adv_cur_le src st
  · split
    · split
      · exact le_trans (adv_cur_le src st) (adv_cur_le src _)
      · exact le_trans (adv_cur_le src st)
          (le_trans (adv_cur_le src _)
            (le_trans (adv_cur_le src _) (scanCharClose_cur_le src _)))
    · exact le_trans (adv_cur_le src st)
        (le_trans (adv_cur_le src _) (scanCharClose_cur_le src _))

set_option maxHeartbeats 3200000 in
theorem scanDispatch_cur_le (src : List Char) (c : Char) (st : LexSt) :
    st.cur ≤ (stepSt (scanDispatch src c st)).cur := by
  delta scanDispatch
  by_cases h1 : isAlpha c = true
  · rw [if_pos h1]
    exact scanIdentifier_cur_le src _
  rw [if_neg h1]
  by_cases h2 : isDigit c = true
  · rw [if_pos h2]
    exact scanNumber_cur_le src _
  rw [if_neg h2]
  by_cases h3 : c = '('
  · rw [if_pos h3]
    exact le_refl _
  rw [if_neg h3]
  by_cases h4 : c = ')'
  · rw [if_pos h4]
    exact le_refl _
  rw [if_neg h4]
  by_cases h5 : c = '\x7b'
  · rw [if_pos h5]
    exact le_refl _
  rw [if_neg h5]
  by_cases h6 : c = '\x7d'
  · rw [if_pos h6]
    exact le_refl _
  rw [if_neg h6]
  by_cases h7 : c = '['
  · rw [if_pos h7]
    exact le_refl _
  rw [if_neg h7]
  by_cases h8 : c = ']'
  · rw [if_pos h8]
    exact le_refl _
  rw [if_neg h8]
  by_cases h9 : c = ','
  · rw [if_pos h9]
    exact le_refl _
  rw [if_neg h9]
  by_cases h10 : c = ';'
  · rw [if_pos h10]
    exact le_refl _
  rw [if_neg h10]
  by_cases h11 : c = ':'
  · rw [if_pos h11]
    exact le_refl _
  rw [if_neg h11]
  by_cases h12 : c = '.'
  · rw [if_pos h12]
    exact le_refl _
  rw [if_neg h12]
  by_cases h13 : c = '?'
  · rw [if_pos h13]
    exact le_refl _
  rw [if_neg h13]
  by_cases h14 : c = '+'
  · rw [if_pos h14]
    by_cases h14a : (mtch src '+' st).1 = true
    · rw [if_pos h14a]
      exact mtch_cur_le src '+' st
    rw [if_neg h14a]
    by_cases h14b : (mtch src '=' st).1 = true
    · rw [if_pos h14b]
      exact mtch_cur_le src '=' st
    rw [if_neg h14b]
    exact le_refl _
  rw [if_neg h14]
  by_cases h15 : c = '-'
  · rw [if_pos h15]
    by_cases h15a : (mtch src '>' st).1 = true
    · rw [if_pos h15a]
      exact mtch_cur_le src '>' st
    rw [if_neg h15a]
    exact le_refl _
  rw [if_neg h15]
  by_cases h16 : c = '*'
  · rw [if_pos h16]
    exact le_refl _
  rw [if_neg h16]
  by_cases h17 : c = '/'
  · rw [if_pos h17]
    by_cases h17a : (mtch src '/' st).1 = true
    · rw [if_pos h17a]
      exact le_trans (mtch_cur_le src '/' st) (skipLineComment_cur_le src _)
    rw [if_neg h17a]
    by_cases h17b : (mtch src '*' st).1 = true
    · rw [if_pos h17b]
      exact le_trans (mtch_cur_le src '*' st) (skipBlockComment_cur_le src _)
    rw [if_neg h17b]
    exact le_refl _
  rw [if_neg h17]
  by_cases h18 : c = '%'
  · rw [if_pos h18]
    exact le_refl _
  rw [if_neg h18]
  by_cases h19 : c = '='
  · rw [if_pos h19]
    by_cases h19a : (mtch src '=' st).1 = true
    · rw [if_pos h19a]
      exact mtch_cur_le src '=' st
    rw [if_neg h19a]
    exact le_refl _
  rw [if_neg h19]
  by_cases h20 : c = '!'
  · rw [if_pos h20]
    by_cases h20a : (mtch src '=' st).1 = true
    · rw [if_pos h20a]
      exact mtch_cur_le src '=' st
    rw [if_neg h20a]
    exact le_refl _
  rw [if_neg h20]
  by_cases h21 : c = '<'
  · rw [if_pos h21]
    by_cases h21a : (mtch src '=' st).1 = true
    · rw [if_pos h21a]
      exact mtch_cur_le src '=' st
    rw [if_neg h21a]
    exact le_refl _
  rw [if_neg h21]
  by_cases h22 : c = '>'
  · rw [if_pos h22]
    by_cases h22a : (mtch src '=' st).1 = true
    · rw [if_pos h22a]
      exact mtch_cur_le src '=' st
    rw [if_neg h22a]
    exact le_refl _
  rw [if_neg h22]
  by_cases h23 : c = '&'
  · rw [if_pos h23]
    by_cases h23a : (mtch src '&' st).1 = true
    · rw [if_pos h23a]
      exact mtch_cur_le src '&' st
    rw [if_neg h23a]
    exact le_refl _
  rw [if_neg h23]
  by_cases h24 : c = '|'
  · rw [if_pos h24]
    by_cases h24a : (mtch src '|' st).1 = true
    · rw [if_pos h24a]
      exact mtch_cur_le src '|' st
    rw [if_neg h24a]
    exact le_refl _
  rw [if_neg h24]
  by_cases h25 : c = '"'
  · rw [if_pos h25]
    exact scanString_cur_le src _
  rw [if_neg h25]
  by_cases h26 : c = '\''
  · rw [if_pos h26]
    exact scanChar_cur_le src _
  rw [if_neg h26]
  exact le_refl _

theorem scanTokenF_spec (src : List Char) :
    ∀ (fuel : Nat) (st : LexSt),
      st.cur ≤ (scanTokenF src fuel st).2.cur ∧
      ((scanTokenF src fuel st).1.type ≠ .END_OF_FILE →
        st.cur < (scanTokenF src fuel st).2.cur) := by
  intro fuel
  induction fuel with
  | zero =>
    intro st
    refine ⟨le_refl _, fun h => absurd rfl h⟩
  | succ f ih =>
    intro st
    have hws := skipWhitespace_cur_le src st
    simp only [scanTokenF]
    split
    · exact ⟨hws, fun h => absurd rfl h⟩
    · rename_i hend
      have hlt : (skipWhitespace src st).cur < src.length := by omega
      have hadv : (adv src ⟨(skipWhitespace src st).cur, (skipWhitespace src st).line,
          (skipWhitespace src st).col, (skipWhitespace src st).cur⟩).cur =
          (skipWhitespace src st).cur + 1 :=
        adv_cur_of_lt src _ hlt
      have hdisp := scanDispatch_cur_le src
        (peek src ⟨(skipWhitespace src st).cur, (skipWhitespace src st).line,
          (skipWhitespace src st).col, (skipWhitespace src st).cur⟩)
        (adv src ⟨(skipWhitespace src st).cur, (skipWhitespace src st).line,
          (skipWhitespace src st).col, (skipWhitespace src st).cur⟩)
      split
      · rename_i t stO hstep
        rw [hstep] at hdisp
        simp only [stepSt] at hdisp
        dsimp only
        exact ⟨by omega, fun _ => by omega⟩
      · rename_i stO hstep
        rw [hstep] at hdisp
        simp only [stepSt] at hdisp
        have hih := (ih stO).1
        exact ⟨by omega, fun _ => by omega⟩

theorem scanTokenF_stable (src : List Char) :
    ∀ (k f g : Nat) (st : LexSt),
      src.length - st.cur ≤ k → src.length - st.cur < f → src.length - st.cur < g →
      scanTokenF src f st = scanTokenF src g st := by
  intro k
  induction k with
  | zero =>
    intro f g st h0 hf hg
    match f, g with
    | f1 + 1, g1 + 1 =>
      have hge : ¬ (skipWhitespace src st).cur < src.length := by
        have := skipWhitespace_cur_le src st
        omega
      simp only [scanTokenF]
      rw [skipWhitespace_of_ge src st (by omega)]
      rw [if_pos (by omega : src.length ≤ st.cur), if_pos (by omega : src.length ≤ st.cur)]
  | succ k ih =>
    intro f g st hk hf hg
    match f, g with
    | f1 + 1, g1 + 1 =>
      have hws := skipWhitespace_cur_le src st
      simp only [scanTokenF]
      by_cases hend : src.length ≤ (skipWhitespace src st).cur
      · rw [if_pos hend, if_pos hend]
      · rw [if_neg hend, if_neg hend]
        have hadv : (adv src ⟨(skipWhitespace src st).cur, (skipWhitespace src st).line,
            (skipWhitespace src st).col, (skipWhitespace src st).cur⟩).cur =
            (skipWhitespace src st).cur + 1 :=
          adv_cur_of_lt src _ (show (skipWhitespace src st).cur < src.length by omega)
        have hdisp := scanDispatch_cur_le src
          (peek src ⟨(skipWhitespace src st).cur, (skipWhitespace src st).line,
            (skipWhitespace src st).col, (skipWhitespace src st).cur⟩)
          (adv src ⟨(skipWhitespace src st).cur, (skipWhitespace src st).line,
            (skipWhitespace src st).col, (skipWhitespace src st).cur⟩)
        cases hstep : scanDispatch src
          (peek src ⟨(skipWhitespace src st).cur, (skipWhitespace src st).line,
            (skipWhitespace src st).col, (skipWhitespace src st).cur⟩)
          (adv src ⟨(skipWhitespace src st).cur, (skipWhitespace src st).line,
            (skipWhitespace src st).col, (skipWhitespace src st).cur⟩) with
        | tok t stO => rfl
        | retry stO =>
          rw [hstep] at hdisp
          simp only [stepSt] at hdisp
          exact ih f1 g1 stO (by omega) (by omega) (by omega)

theorem scanToken_cur_le (src : List Char) (st : LexSt) :
    st.cur ≤ (scanToken src st).2.cur :=
  (scanTokenF_spec src (src.length + 1) st).1

theorem scanToken_progress (src : List Char) (st : LexSt)
    (h : (scanToken src st).1.type ≠ .END_OF_FILE) :
    st.cur < (scanToken src st).2.cur :=
  (scanTokenF_spec src (src.length + 1) st).2 h

theorem scanToken_end (src : List Char) (st : LexSt) (h : ¬ st.cur < src.length) :
    (scanToken src st).1.type = .END_OF_FILE := by
  simp only [scanToken, scanTokenF]
  rw [skipWhitespace_of_ge src st h]
  rw [if_pos (by omega : src.length ≤ st.cur)]
  rfl

theorem scanToken_eventually_eof (src : List Char) :
    ∀ st : LexSt, ∃ n, (scanToken src (scanIter src n st)).1.type = .END_OF_FILE := by
  have H : ∀ (k : Nat) (st : LexSt), src.length - st.cur ≤ k →
      ∃ n, (scanToken src (scanIter src n st)).1.type = .END_OF_FILE := by
    intro k
    induction k with
    | zero =>
      intro st h0
      exact ⟨0, scanToken_end src st (by omega)⟩
    | succ k ih =>
      intro st hk
      by_cases he : (scanToken src st).1.type = .END_OF_FILE
      · exact ⟨0, he⟩
      · have hp := scanToken_progress src st he
        obtain ⟨n, hn⟩ := ih (scanToken src st).2 (by omega)
        refine ⟨n + 1, ?_⟩
        simp only [scanIter]
        exact hn
  intro st
  exact H (src.length - st.cur) st (le_refl _)

/-! ## The lexer-mode dump loop (`run_lexer`) -/

theorem tokensUpTo_one_length (src : List Char) (st : LexSt) :
    (tokensUpTo src 1 st).length = 1 := by
  simp only [tokensUpTo]
  split <;> rfl

theorem runLexerLoop_char (src : List Char) :
    ∀ (fuel count : Nat) (st : LexSt), fuel + count = 502 → count ≤ 500 →
      runLexerLoop src fuel st count =
        (if (tokensUpTo src fuel st).length ≤ 501 - count
         then ((tokensUpTo src fuel st).map formatToken, false)
         else (((tokensUpTo src fuel st).take (501 - count)).map formatToken, true)) := by
  intro fuel
  induction fuel with
  | zero =>
    intro count st h5 hc
    omega
  | succ f ih =>
    intro count st h5 hc
    simp only [runLexerLoop, tokensUpTo]
    by_cases he : (scanToken src st).1.type = .END_OF_FILE
    · simp only [he, if_true, reduceIte]
      rw [if_pos (by simp; omega)]
      simp
    · simp only [he, if_false, reduceIte]
      by_cases hcap : 500 < count + 1
      · rw [if_pos hcap]
        have hf : f = 1 := by omega
        subst hf
        have hone := tokensUpTo_one_length src (scanToken src st).2
        rw [if_neg (by simp [hone]; omega)]
        have h1 : 501 - count = 1 := by omega
        rw [h1]
        simp [List.take, hone]
      · rw [if_neg hcap]
        rw [ih (count + 1) (scanToken src st).2 (by omega) (by omega)]
        by_cases hlen :
            (tokensUpTo src f (scanToken src st).2).length ≤ 501 - (count + 1)
        · rw [if_pos hlen]
          rw [if_pos (by simp; omega)]
          simp
        · rw [if_neg hlen]
          rw [if_neg (by simp; omega)]
          obtain ⟨m, hm1, hm2⟩ : ∃ m, 501 - count = m + 1 ∧ m = 501 - (count + 1) :=
            ⟨501 - (count + 1), by omega, rfl⟩
          rw [hm1, hm2]
          simp

theorem scanToken_semis (N i : Nat) (line col : Int) (s : Nat) (hi : i < N) :
    scanToken (List.replicate N ';') ⟨i, line, col, s⟩ =
      (⟨.SEMICOLON, ";", line, col⟩, ⟨i + 1, line, col + 1, i⟩) := by
  have hlen : (List.replicate N ';').length = N := List.length_replicate N ';'
  have hch : ∀ j : Nat, j < N → chAt (List.replicate N ';') j = ';' := by
    intro j hj
    simp [chAt, hlen, hj, List.getElem_replicate]
  have hpeek : ∀ (j : Nat) (lj cj : Int) (sj : Nat), j < N →
      peek (List.replicate N ';') ⟨j, lj, cj, sj⟩ = ';' := by
    intro j lj cj sj hj
    simp only [peek]
    exact hch j hj
  have hadv : ∀ (j : Nat) (lj cj : Int) (sj : Nat), j < N →
      adv (List.replicate N ';') ⟨j, lj, cj, sj⟩ = ⟨j + 1, lj, cj + 1, sj⟩ := by
    intro j lj cj sj hj
    simp [adv, hlen, hj, hch j hj]
  have hws : skipWhitespace (List.replicate N ';') ⟨i, line, col, s⟩ = ⟨i, line, col, s⟩ := by
    simp only [skipWhitespace, hlen, skipWhitespaceF]
    rw [if_pos (by simpa [hlen] using hi)]
    rw [hpeek i line col s hi]
    simp
  simp only [scanToken, hlen, scanTokenF, hws]
  rw [if_neg (by omega)]
  rw [hpeek i line col i hi, hadv i line col i hi]
  simp only [scanDispatch]
  rw [if_neg (by decide : ¬ isAlpha ';' = true)]
  rw [if_neg (by decide : ¬ isDigit ';' = true)]
  rw [if_neg (by decide : ¬ (';' = '('))]
  rw [if_neg (by decide : ¬ (';' = ')'))]
  rw [if_neg (by decide : ¬ (';' = '\x7b'))]
  rw [if_neg (by decide : ¬ (';' = '\x7d'))]
  rw [if_neg (by decide : ¬ (';' = '['))]
  rw [if_neg (by decide : ¬ (';' = ']'))]
  rw [if_neg (by decide : ¬ (';' = ','))]
  simp only [if_true]
  simp only [makeToken, List.drop_replicate, List.take_replicate]
  have hmin : (i + 1 - i) ⊓ (N - i) = 1 := by omega
  rw [hmin, List.replicate_one]
  simp [String.length]

theorem semis_tokensUpTo_len :
    ∀ (f i s : Nat), i ≤ 501 → 501 - i < f →
      (tokensUpTo (List.replicate 501 ';') f ⟨i, 1, (i : Int) + 1, s⟩).length = 502 - i := by
  intro f
  induction f with
  | zero =>
    intro i s hi hf
    omega
  | succ f ih =>
    intro i s hi hf
    by_cases hieq : i = 501
    · subst hieq
      have hend := scanToken_end (List.replicate 501 ';') ⟨501, 1, (501 : Nat) + 1, s⟩
        (by rw [List.length_replicate]; show ¬ (501 : Nat) < 501; omega)
      simp only [tokensUpTo]
      rw [if_pos hend]
      rfl
    · have hlt : i < 501 := by omega
      simp only [tokensUpTo]
      rw [scanToken_semis 501 i 1 ((i : Int) + 1) s hlt]
      dsimp only
      rw [if_neg (by decide : ¬ (TokenType.SEMICOLON = TokenType.END_OF_FILE))]
      have hcast : ((i : Int) + 1) + 1 = ((i + 1 : Nat) : Int) + 1 := by push_cast; ring
      rw [hcast]
      rw [List.length_cons, ih (i + 1) i (by omega) (by omega)]
      omega

/-! ## Claim theorems for the lexer and the dump -/

/-- C10: `scan_token` always terminates — fuel beyond the canonical
`src.length + 1` never changes the result, so the comment-skipping
self-recursion always bottoms out — every call that does not return an
END_OF_FILE token strictly advances the cursor, and consequently
iterating `scan_token` from any state reaches an END_OF_FILE token after
finitely many calls. -/
theorem scan_token_terminates_and_advances :
    (∀ (src : List Char) (st : LexSt) (extra : Nat),
        scanTokenF src (src.length + 1 + extra) st = scanToken src st) ∧
    (∀ (src : List Char) (st : LexSt),
        (scanToken src st).1.type ≠ .END_OF_FILE → st.cur < (scanToken src st).2.cur) ∧
    (∀ (src : List Char) (st : LexSt),
        ∃ n, (scanToken src (scanIter src n st)).1.type = .END_OF_FILE) := by
  refine ⟨?_, ?_, ?_⟩
  · intro src st extra
    exact scanTokenF_stable src (src.length - st.cur)
      (src.length + 1 + extra) (src.length + 1) st (le_refl _) (by omega) (by omega)
  · exact scanToken_progress
  · exact scanToken_eventually_eof

/-- Witness for C10 at a concrete input: scanning the one-character
source ";" from the initial state advances the cursor. -/
theorem scan_token_terminates_and_advances_witness :
    lexInit.cur < (scanToken [';'] lexInit).2.cur :=
  scan_token_terminates_and_advances.2.1 [';'] lexInit (by decide)

/-- C3 (evaluation at the failing inputs): `scan_char` consumes one
character unconditionally before examining the escape structure, so the
single-unit literal `'a'` is rejected with the "Character too long" ERROR
while the two-unit literal `'ab'` is accepted as a CHAR_LITERAL; the
escaped `'\n'` is accepted. -/
theorem scan_char_off_by_one :
    (scanToken (String.toList "'a'") lexInit).1 =
      ⟨.ERROR, "Character too long", 1, 4⟩ ∧
    (scanToken (String.toList "'ab'") lexInit).1 =
      ⟨.CHAR_LITERAL, "'ab'", 1, 1⟩ ∧
    (scanToken (String.toList "'\\n'") lexInit).1.type = .CHAR_LITERAL := by
  refine ⟨?_, ?_, ?_⟩ <;> decide

/-- C8: numeric literal scanning — `0x1A` and `0b101` are INT_LITERALs,
`1.5e-3` is a FLOAT_LITERAL, `1.2.3` is an ERROR; an underscore inside a
numeric literal is consumed as a separator without terminating the scan
(for any flag state), and a `.` seen when a float dot was already seen or
a hex/bin prefix is active makes the literal an error (`0x1.2` shown
concretely). -/
theorem scan_number_formats :
    (scanToken (String.toList "0x1A") lexInit).1 = ⟨.INT_LITERAL, "0x1A", 1, 1⟩ ∧
    (scanToken (String.toList "0b101") lexInit).1 = ⟨.INT_LITERAL, "0b101", 1, 1⟩ ∧
    (scanToken (String.toList "1.5e-3") lexInit).1 = ⟨.FLOAT_LITERAL, "1.5e-3", 1, 1⟩ ∧
    (scanToken (String.toList "1.2.3") lexInit).1.type = .ERROR ∧
    (scanToken (String.toList "1_0") lexInit).1 = ⟨.INT_LITERAL, "1_0", 1, 1⟩ ∧
    (scanToken (String.toList "0x1.2") lexInit).1 =
      ⟨.ERROR, "Invalid numeric format", 1, 4⟩ ∧
    (∀ (src : List Char) (fuel : Nat) (isF isH isB : Bool) (st : LexSt),
        st.cur < src.length → peek src st = '_' →
        scanNumberLoopF src (fuel + 1) isF isH isB st =
          scanNumberLoopF src fuel isF isH isB (adv src st)) ∧
    (∀ (src : List Char) (fuel : Nat) (isF isH isB : Bool) (st : LexSt),
        st.cur < src.length → peek src st = '.' → (isF || isH || isB) = true →
        scanNumberLoopF src (fuel + 1) isF isH isB st = .bad st) := by
  refine ⟨by decide, by decide, by decide, by decide, by decide, by decide, ?_, ?_⟩
  · intro src fuel isF isH isB st h1 h2
    simp only [scanNumberLoopF]
    rw [if_pos h1]
    rw [if_neg (by rw [h2]; decide)]
    rw [if_pos h2]
  · intro src fuel isF isH isB st h1 h2 h3
    simp only [scanNumberLoopF]
    rw [if_pos h1]
    rw [if_pos h2]
    rw [if_pos h3]

/-- Witness for C8's universally quantified clauses at concrete inputs:
an underscore continues the scan in `1_`, and a dot with the float flag
already set errors in `1.`. -/
theorem scan_number_formats_witness :
    scanNumberLoopF ['1', '_'] 3 false false false ⟨1, 1, 2, 0⟩ =
      scanNumberLoopF ['1', '_'] 2 false false false (adv ['1', '_'] ⟨1, 1, 2, 0⟩) ∧
    scanNumberLoopF ['1', '.'] 3 true false false ⟨1, 1, 2, 0⟩ = .bad ⟨1, 1, 2, 0⟩ :=
  ⟨scan_number_formats.2.2.2.2.2.2.1 ['1', '_'] 2 false false false ⟨1, 1, 2, 0⟩
      (by decide) (by decide),
   scan_number_formats.2.2.2.2.2.2.2 ['1', '.'] 2 true false false ⟨1, 1, 2, 0⟩
      (by decide) (by decide) (by decide)⟩

/-- C9 (amended): the lexer-mode dump prints one `format_token` line per
scanned token; when the source yields at most 501 tokens (counting the
final END_OF_FILE) every token is printed and no notice appears, and
otherwise exactly 501 token lines are printed followed by the
"Token limit exceeded" notice — the post-increment cap check admits 501
printed tokens, not 500. -/
theorem run_lexer_dump_cap (src : List Char) :
    runLexer src =
      if (tokensUpTo src 502 lexInit).length ≤ 501
      then ((tokensUpTo src 502 lexInit).map formatToken, false)
      else (((tokensUpTo src 502 lexInit).take 501).map formatToken, true) := by
  have h := runLexerLoop_char src 502 0 lexInit rfl (by omega)
  simpa [runLexer] using h

/-- C9 (counterexample): a source of 501 semicolons makes `run_lexer`
print 501 token lines — more than the cap of 500 the claim states — and
the limit notice. -/
theorem run_lexer_cap_counterexample :
    500 < (runLexer (List.replicate 501 ';')).1.length ∧
    (runLexer (List.replicate 501 ';')).2 = true := by
  have hlen := semis_tokensUpTo_len 502 0 0 (by omega) (by omega)
  norm_num at hlen
  have hchar := run_lexer_dump_cap (List.replicate 501 ';')
  rw [show (⟨0, 1, 1, 0⟩ : LexSt) = lexInit from rfl] at hlen
  rw [hlen] at hchar
  rw [if_neg (by omega)] at hchar
  rw [hchar]
  constructor
  · rw [List.length_map, List.length_take, hlen]
    omega
  · rfl

/-! ## Claim theorems for the parser -/

/-- C1 (evaluation at the failing input): for every fuel, parsing
`func main() -> i32 { return 0; }` yields the empty statement list with
no error recorded — the parser constructor's `advance()` is guarded by
`is_at_end()`, which inspects the END_OF_FILE placeholder in `m_current`,
so no token is ever fetched and the FunctionDecl is never produced. -/
theorem parse_main_func_yields_empty :
    ∀ fuel : Nat,
      (parseProgram (String.toList "func main() -> i32 \x7b return 0; \x7d") (fuel + 1)).2 =
        PRes.ok [] ∧
      hadError
        (parseProgram (String.toList "func main() -> i32 \x7b return 0; \x7d") (fuel + 1)).1 =
        false := by
  intro fuel
  constructor
  · simp only [parseProgram, pParseLoop]
    rw [if_pos (show (mkParser _).current.type = .END_OF_FILE from rfl)]
  · simp only [parseProgram, pParseLoop]
    rw [if_pos (show (mkParser _).current.type = .END_OF_FILE from rfl)]
    rfl

/-- C4 (evaluation at the failing input): for every fuel, parsing the
malformed-then-well-formed unit `; x = 1;` yields the empty statement
list and `had_error()` is false — the same constructor bootstrap bug
means no recovery (and no error recording) ever happens. -/
theorem parse_recovery_yields_empty :
    ∀ fuel : Nat,
      (parseProgram (String.toList "; x = 1;") (fuel + 1)).2 = PRes.ok [] ∧
      hadError (parseProgram (String.toList "; x = 1;") (fuel + 1)).1 = false := by
  intro fuel
  constructor
  · simp only [parseProgram, pParseLoop]
    rw [if_pos (show (mkParser _).current.type = .END_OF_FILE from rfl)]
  · simp only [parseProgram, pParseLoop]
    rw [if_pos (show (mkParser _).current.type = .END_OF_FILE from rfl)]
    rfl

theorem pAdvance_previous (src : List Char) (st : PState) :
    (pAdvance src st).previous = st.current := by
  simp only [pAdvance, pError]
  repeat' split
  all_goals rfl

/-- C5: in the `assignment` production, after the left-hand side has been
parsed and an `=` or `+=` is current, the right-hand side is parsed
recursively; an Identifier target yields an AssignExpr, while any other
target reports "Invalid assignment target" and the production returns the
left-hand expression itself, unwrapped, with the right-hand side
discarded. -/
theorem assignment_nonident_unwraps :
    ∀ (src : List Char) (fuel : Nat) (st st1 st3 : PState) (e v : Expr),
      pTernary src fuel st = (st1, PRes.ok e) →
      (st1.current.type = TokenType.EQUAL ∨ st1.current.type = TokenType.PLUS_EQUAL) →
      pAssignment src fuel (pAdvance src st1) = (st3, PRes.ok v) →
      pAssignment src (fuel + 1) st =
        (match e with
         | .ident n => (st3, PRes.ok (.assign st1.current.type (.ident n) v))
         | _ => (pError st3, PRes.ok e)) := by
  intro src fuel st st1 st3 e v h1 h2 h3
  have hma : pMatchAny src [.EQUAL, .PLUS_EQUAL] st1 = (true, pAdvance src st1) := by
    rcases h2 with h2 | h2 <;> simp [pMatchAny, pCheck, h2]
  simp only [pAssignment]
  rw [h1]
  dsimp only
  rw [hma]
  dsimp only
  rw [h3]
  rw [pAdvance_previous]

/-- Witness for C5 at concrete inputs: parsing `1 = 2` from a state whose
current token is the literal `1` returns the literal itself (unwrapped)
with an error recorded, because the target is not an Identifier. -/
theorem assignment_nonident_unwraps_witness :
    pAssignment (String.toList "1 = 2") 51
        ⟨⟨1, 1, 2, 0⟩, ⟨.INT_LITERAL, "1", 1, 1⟩, ⟨.END_OF_FILE, "", 0, 0⟩, 0, false⟩ =
      (pError ⟨⟨5, 1, 6, 4⟩, ⟨.END_OF_FILE, "2", 1, 5⟩, ⟨.INT_LITERAL, "2", 1, 5⟩, 0, false⟩,
       PRes.ok (.lit .INT_LITERAL "1")) := by
  have h := assignment_nonident_unwraps (String.toList "1 = 2") 50
    ⟨⟨1, 1, 2, 0⟩, ⟨.INT_LITERAL, "1", 1, 1⟩, ⟨.END_OF_FILE, "", 0, 0⟩, 0, false⟩
    ⟨⟨3, 1, 4, 2⟩, ⟨.EQUAL, "=", 1, 3⟩, ⟨.INT_LITERAL, "1", 1, 1⟩, 0, false⟩
    ⟨⟨5, 1, 6, 4⟩, ⟨.END_OF_FILE, "2", 1, 5⟩, ⟨.INT_LITERAL, "2", 1, 5⟩, 0, false⟩
    (.lit .INT_LITERAL "1") (.lit .INT_LITERAL "2")
    (by rfl) (Or.inl (by rfl)) (by rfl)
  exact h

/-! ## Claim theorems for the AST type heuristic -/

/-- C6 (evaluation at the failing input): a Binary expression over
integer operands reports I32, not the largest signed integer kind I64;
the floating half of the rule (either operand F32/F64 gives F64) does
hold. -/
theorem binary_get_type_not_i64 :
    getType (.binary .PLUS (.lit .INT_LITERAL "1") (.lit .INT_LITERAL "2")) = .I32 ∧
    getType (.binary .PLUS (.lit .INT_LITERAL "1") (.lit .INT_LITERAL "2")) ≠ .I64 ∧
    (∀ (l r : Expr) (op : TokenType),
        (getType l = .F32 ∨ getType r = .F32 ∨ getType l = .F64 ∨ getType r = .F64) →
        getType (.binary op l r) = .F64) := by
  refine ⟨rfl, by decide, ?_⟩
  intro l r op h
  simp only [getType]
  rw [if_pos h]

/-- Witness for C6's universally quantified clause: an F32 literal on the
left makes the Binary expression F64. -/
theorem binary_get_type_not_i64_witness :
    getType (.binary .PLUS (.lit .F32 "1.0") (.lit .INT_LITERAL "2")) = .F64 :=
  binary_get_type_not_i64.2.2 (.lit .F32 "1.0") (.lit .INT_LITERAL "2") .PLUS
    (Or.inl (by decide))

/-! ## Claim theorems for the code generator -/

/-- C2 (evaluation at the failing input): lowering a call to the declared
function `f` reports "Unknown variable: f" — `visit(Identifier&)` consults
only the local `named_values` slot table, never the module's declared
functions — followed by "Call to non-function"; no call instruction is
emitted anywhere, while lowering continues (both functions are still in
the module). -/
theorem call_to_declared_function_unresolved :
    (generate [declF, declG]).cg.errors =
      ["Unknown variable: f", "Call to non-function"] ∧
    ((generate [declF, declG]).cg.blocks.all fun b =>
      b.instrs.all fun i => !isCallInstr i) = true ∧
    (generate [declF, declG]).module.map Fn.name = ["f", "g"] := by
  refine ⟨rfl, rfl, rfl⟩

/-! ## Code-generator invariant: no lowering step touches a "main" function -/

theorem cgOk_of_eq (cg cg' : CG) (hb : cg'.blocks = cg.blocks)
    (hd : cg'.detached = cg.detached) (hn : cg'.nextBlock = cg.nextBlock)
    (h : cgOkMain cg) : cgOkMain cg' := by
  constructor
  · intro b hmem
    rw [hb] at hmem
    rw [hn]
    exact h.1 b hmem
  · intro b hmem
    rw [hd] at hmem
    rw [hn]
    exact h.2 b hmem

theorem emit_ok (cg : CG) (i : Instr) (h : cgOkMain cg) : cgOkMain (emit cg i) := by
  unfold emit
  split
  · constructor
    · intro b hmem
      simp only [List.mem_map] at hmem
      obtain ⟨a, ha, rfl⟩ := hmem
      have h2 := h.1 a ha
      refine ⟨?_, ?_⟩
      · show (if a.id = _ then { a with instrs := a.instrs ++ [i] } else a).parent ≠ some "main"
        split
        · exact h2.1
        · exact h2.1
      · show (if a.id = _ then { a with instrs := a.instrs ++ [i] } else a).id < cg.nextBlock
        split
        · exact h2.2
        · exact h2.2
    · intro b hmem
      simp only [List.mem_map] at hmem
      obtain ⟨a, ha, rfl⟩ := hmem
      have h2 := h.2 a ha
      refine ⟨?_, ?_⟩
      · show (if a.id = _ then { a with instrs := a.instrs ++ [i] } else a).parent ≠ some "main"
        split
        · exact h2.1
        · exact h2.1
      · show (if a.id = _ then { a with instrs := a.instrs ++ [i] } else a).id < cg.nextBlock
        split
        · exact h2.2
        · exact h2.2
  · exact h

theorem newBlock_ok (cg : CG) (n : String) (p : Option String) (hp : p ≠ some "main")
    (h : cgOkMain cg) : cgOkMain (newBlock cg n p).2 := by
  constructor
  · intro b hmem
    show b.parent ≠ some "main" ∧ b.id < cg.nextBlock + 1
    have hmem2 : b ∈ cg.blocks ++ [⟨cg.nextBlock, n, p, []⟩] := hmem
    rw [List.mem_append, List.mem_singleton] at hmem2
    rcases hmem2 with hmem2 | rfl
    · have h2 := h.1 b hmem2
      exact ⟨h2.1, by omega⟩
    · exact ⟨hp, by show cg.nextBlock < cg.nextBlock + 1; omega⟩
  · intro b hmem
    show b.parent ≠ some "main" ∧ b.id < cg.nextBlock + 1
    have h2 := h.2 b hmem
    exact ⟨h2.1, by omega⟩

theorem newDetached_ok (cg : CG) (n : String) (h : cgOkMain cg) :
    cgOkMain (newDetached cg n).2 := by
  constructor
  · intro b hmem
    show b.parent ≠ some "main" ∧ b.id < cg.nextBlock + 1
    have h2 := h.1 b hmem
    exact ⟨h2.1, by omega⟩
  · intro b hmem
    show b.parent ≠ some "main" ∧ b.id < cg.nextBlock + 1
    have hmem2 : b ∈ cg.detached ++ [⟨cg.nextBlock, n, none, []⟩] := hmem
    rw [List.mem_append, List.mem_singleton] at hmem2
    rcases hmem2 with hmem2 | rfl
    · have h2 := h.2 b hmem2
      exact ⟨h2.1, by omega⟩
    · exact ⟨by simp, by show cg.nextBlock < cg.nextBlock + 1; omega⟩

theorem fnInsert_ok (cg : CG) (p : Option String) (bid : Nat) (hp : p ≠ some "main")
    (h : cgOkMain cg) : cgOkMain (fnInsert cg p bid) := by
  unfold fnInsert
  split
  · rename_i b0 heq
    constructor
    · intro b hmem
      show b.parent ≠ some "main" ∧ b.id < cg.nextBlock
      have hmem2 : b ∈ cg.blocks ++ [{ b0 with parent := p }] := hmem
      rw [List.mem_append, List.mem_singleton] at hmem2
      rcases hmem2 with hmem2 | rfl
      · exact h.1 b hmem2
      · have hb0 := h.2 b0 (List.mem_of_find?_eq_some heq)
        exact ⟨hp, hb0.2⟩
    · intro b hmem
      show b.parent ≠ some "main" ∧ b.id < cg.nextBlock
      have hmem2 : b ∈ cg.detached := List.mem_of_mem_filter hmem
      exact h.2 b hmem2
  · exact h

theorem insertParent_ok (cg : CG) (h : cgOkMain cg) : insertParent cg ≠ some "main" := by
  unfold insertParent
  split
  · split
    · rename_i b heq
      have hmem := List.mem_of_find?_eq_some heq
      rw [List.mem_append] at hmem
      rcases hmem with hmem | hmem
      · exact (h.1 b hmem).1
      · exact (h.2 b hmem).1
    · simp
  · simp

theorem freshReg_ok (cg : CG) (h : cgOkMain cg) : cgOkMain (freshReg cg).2 :=
  cgOk_of_eq cg _ rfl rfl rfl h

theorem cgError_ok (cg : CG) (msg : String) (h : cgOkMain cg) : cgOkMain (cgError cg msg) :=
  cgOk_of_eq cg _ rfl rfl rfl h

theorem setIP_ok (cg : CG) (bid : Nat) (h : cgOkMain cg) : cgOkMain (setIP cg bid) :=
  cgOk_of_eq cg _ rfl rfl rfl h

theorem cgParams_ok : ∀ (fn : String) (ps : List (String × LTy)) (idx : Nat) (cg : CG),
    cgOkMain cg → cgOkMain (cgParams fn ps idx cg)
  | _, [], _, _, h => h
  | fn, (pn, pt) :: rest, idx, cg, h =>
    cgParams_ok fn rest (idx + 1) _
      (cgOk_of_eq _ _ rfl rfl rfl
        (emit_ok _ _ (emit_ok _ _ (freshReg_ok cg h))))

theorem cgOk_cf (cg : CG) (v : Option String) (h : cgOkMain cg) :
    cgOkMain { cg with currentFunction := v } := h

theorem cgOk_nv (cg : CG) (nv : List (String × AllocaRef)) (h : cgOkMain cg) :
    cgOkMain { cg with namedValues := nv } := h

mutual

theorem cgExpr_ok (module : List Fn) : ∀ (e : Expr) (cg : CG),
    cgOkMain cg → cgOkMain (cgExpr module e cg)
  | .lit t v, cg, h => by
    cases t <;> exact h
  | .grouping e, cg, h => cgExpr_ok module e cg h
  | .ident name, cg, h => by
    simp only [cgExpr]
    split
    · exact emit_ok _ _ (freshReg_ok _ h)
    · exact cgError_ok _ ("Unknown variable: " ++ name) h
  | .binary op l r, cg, h => by
    simp only [cgExpr]
    split
    all_goals try split
    all_goals
      first
        | exact emit_ok _ _ (freshReg_ok _ (cgExpr_ok module r _ (cgExpr_ok module l cg h)))
        | exact cgExpr_ok module r _ (cgExpr_ok module l cg h)
  | .unary op e, cg, h => by
    simp only [cgExpr]
    split
    all_goals
      first
        | exact emit_ok _ _ (freshReg_ok _ (cgExpr_ok module e cg h))
        | exact cgExpr_ok module e cg h
  | .assign op target value, cg, h => by
    simp only [cgExpr]
    split
    · split
      · exact emit_ok _ _ (cgExpr_ok module value cg h)
      · exact cgError_ok _ _ (cgExpr_ok module value cg h)
    · exact cgError_ok _ _ (cgExpr_ok module value cg h)
  | .call callee args, cg, h => by
    simp only [cgExpr]
    split
    all_goals
      first
        | exact emit_ok _ _ (freshReg_ok _
            (cgExpr_ok module callee _ (cgExprArgs_ok module args cg [] h)))
        | exact cgError_ok _ _
            (cgExpr_ok module callee _ (cgExprArgs_ok module args cg [] h))

theorem cgExprArgs_ok (module : List Fn) : ∀ (es : List Expr) (cg : CG)
    (acc : List (Option Val)), cgOkMain cg → cgOkMain (cgExprArgs module es cg acc).2
  | [], _, _, h => h
  | a :: rest, cg, _, h =>
    cgExprArgs_ok module rest _ _ (cgExpr_ok module a cg h)

theorem cgStmt_ok (module : List Fn) : ∀ (s : Stmt) (cg : CG),
    cgOkMain cg → cgOkMain (cgStmt module s cg)
  | .block stmts, cg, h => cgStmtList_ok module stmts cg h
  | .funcDecl name params retType body, cg, h => by
    simp only [cgStmt]
    by_cases hnm : name = "main"
    · simp only [if_pos hnm]
      have hps : (some "sleaf_main" : Option String) ≠ some "main" := by decide
      split
      · exact cgError_ok _ _ h
      · split
        all_goals try split
        all_goals try split
        all_goals
          first
            | exact cgOk_cf _ _ (cgStmtList_ok module body _
                (cgParams_ok _ _ _ _ (cgOk_nv _ _ (setIP_ok _ _
                  (newBlock_ok _ _ _ hps (cgOk_cf _ _ h))))))
            | exact cgOk_cf _ _ (emit_ok _ _ (cgStmtList_ok module body _
                (cgParams_ok _ _ _ _ (cgOk_nv _ _ (setIP_ok _ _
                  (newBlock_ok _ _ _ hps (cgOk_cf _ _ h)))))))
            | exact cgOk_cf _ _ (cgError_ok _ _ (cgStmtList_ok module body _
                (cgParams_ok _ _ _ _ (cgOk_nv _ _ (setIP_ok _ _
                  (newBlock_ok _ _ _ hps (cgOk_cf _ _ h)))))))
    · simp only [if_neg hnm]
      have hpn : (some name : Option String) ≠ some "main" := by
        simp only [ne_eq, Option.some.injEq]
        exact hnm
      split
      · exact cgError_ok _ _ h
      · split
        all_goals try split
        all_goals try split
        all_goals
          first
            | exact cgOk_cf _ _ (cgStmtList_ok module body _
                (cgParams_ok _ _ _ _ (cgOk_nv _ _ (setIP_ok _ _
                  (newBlock_ok _ _ _ hpn (cgOk_cf _ _ h))))))
            | exact cgOk_cf _ _ (emit_ok _ _ (cgStmtList_ok module body _
                (cgParams_ok _ _ _ _ (cgOk_nv _ _ (setIP_ok _ _
                  (newBlock_ok _ _ _ hpn (cgOk_cf _ _ h)))))))
            | exact cgOk_cf _ _ (cgError_ok _ _ (cgStmtList_ok module body _
                (cgParams_ok _ _ _ _ (cgOk_nv _ _ (setIP_ok _ _
                  (newBlock_ok _ _ _ hpn (cgOk_cf _ _ h)))))))
  | .varDecl varType name init isC, cg, h => by
    cases init with
    | none => exact h
    | some e =>
      simp only [cgStmt]
      exact emit_ok _ _ (emit_ok _ _ (freshReg_ok _ (cgExpr_ok module e cg h)))
  | .ifS cond thenB elseB, cg, h => by
    have h1 := cgExpr_ok module cond cg h
    have hp := insertParent_ok _ h1
    cases elseB with
    | none =>
      simp only [cgStmt]
      exact setIP_ok _ _ (fnInsert_ok _ _ _ hp (emit_ok _ _ (setIP_ok _ _
        (fnInsert_ok _ _ _ hp (emit_ok _ _ (cgStmt_ok module thenB _ (setIP_ok _ _
          (emit_ok _ _ (newDetached_ok _ _ (newDetached_ok _ _
            (newBlock_ok _ _ _ hp h1)))))))))))
    | some els =>
      simp only [cgStmt]
      exact setIP_ok _ _ (fnInsert_ok _ _ _ hp (emit_ok _ _ (cgStmt_ok module els _
        (setIP_ok _ _ (fnInsert_ok _ _ _ hp (emit_ok _ _ (cgStmt_ok module thenB _
          (setIP_ok _ _ (emit_ok _ _ (newDetached_ok _ _ (newDetached_ok _ _
            (newBlock_ok _ _ _ hp h1))))))))))))
  | .whileS cond body, cg, h => by
    have hp := insertParent_ok cg h
    simp only [cgStmt]
    exact setIP_ok _ _ (emit_ok _ _ (cgStmt_ok module body _ (setIP_ok _ _ (emit_ok _ _
      (cgExpr_ok module cond _ (setIP_ok _ _ (emit_ok _ _ (newBlock_ok _ _ _ hp
        (newBlock_ok _ _ _ hp (newBlock_ok _ _ _ hp h))))))))))
  | .forS init cond incr body, cg, h => by
    cases init <;> cases cond <;> cases incr <;> simp only [cgStmt]
    all_goals refine setIP_ok _ _ (emit_ok _ _ ?_)
    all_goals try refine cgExpr_ok module _ _ ?_
    all_goals refine cgStmt_ok module body _ ?_
    all_goals refine setIP_ok _ _ (emit_ok _ _ ?_)
    all_goals try refine cgExpr_ok module _ _ ?_
    all_goals refine setIP_ok _ _ (emit_ok _ _
      (newBlock_ok _ _ _ ?_ (newBlock_ok _ _ _ ?_ (newBlock_ok _ _ _ ?_ ?_))))
    all_goals
      first
        | exact insertParent_ok _ (cgStmt_ok module _ _ h)
        | exact insertParent_ok _ h
        | exact cgStmt_ok module _ _ h
        | exact h
  | .ret value, cg, h => by
    cases value with
    | none => exact emit_ok _ _ h
    | some e =>
      simp only [cgStmt]
      exact emit_ok _ _ (cgExpr_ok module e cg h)
  | .exprStmt e, cg, h => cgExpr_ok module e cg h

theorem cgStmtList_ok (module : List Fn) : ∀ (l : List (Option Stmt)) (cg : CG),
    cgOkMain cg → cgOkMain (cgStmtList module l cg)
  | [], _, h => h
  | none :: rest, cg, h => cgStmtList_ok module rest cg h
  | some s :: rest, cg, h => cgStmtList_ok module rest _ (cgStmt_ok module s cg h)

end

theorem cgInit_ok : cgOkMain cgInit := by
  constructor
  · intro b hb
    simp [cgInit] at hb
  · intro b hb
    simp [cgInit] at hb

theorem foldl_cgStmt_ok (module : List Fn) (stmts : List Stmt) : ∀ (cg : CG),
    cgOkMain cg → cgOkMain (stmts.foldl (fun cg s => cgStmt module s cg) cg) := by
  induction stmts with
  | nil => intro cg h; exact h
  | cons s rest ih =>
    intro cg h
    rw [List.foldl_cons]
    exact ih _ (cgStmt_ok module s cg h)

theorem prepass_go_snd (stmts : List Stmt) : ∀ (acc : List Fn × Bool),
    (stmts.foldl
      (fun acc s =>
        match s with
        | .funcDecl name params retType _ =>
          (acc.1 ++ [fnOfDecl name params retType], acc.2 || decide (name = "main"))
        | _ => acc)
      acc).2 = (acc.2 || containsMainDecl stmts) := by
  induction stmts with
  | nil =>
    intro acc
    simp [containsMainDecl]
  | cons s rest ih =>
    intro acc
    rw [List.foldl_cons]
    cases s
    all_goals rw [ih]
    all_goals simp [containsMainDecl, List.any_cons, Bool.or_assoc]

theorem prepass_snd (stmts : List Stmt) : (prepass stmts).2 = containsMainDecl stmts := by
  have h := prepass_go_snd stmts ([], false)
  simpa [prepass] using h

theorem prepass_go_mono (stmts : List Stmt) : ∀ (acc : List Fn × Bool) (f : Fn),
    f ∈ acc.1 →
    f ∈ (stmts.foldl
      (fun acc s =>
        match s with
        | .funcDecl name params retType _ =>
          (acc.1 ++ [fnOfDecl name params retType], acc.2 || decide (name = "main"))
        | _ => acc)
      acc).1 := by
  induction stmts with
  | nil => intro acc f hf; exact hf
  | cons s rest ih =>
    intro acc f hf
    rw [List.foldl_cons]
    apply ih
    cases s
    all_goals first
      | exact hf
      | exact List.mem_append_left _ hf

theorem prepass_go_main (stmts : List Stmt) : ∀ (acc : List Fn × Bool),
    containsMainDecl stmts = true →
    ∃ f ∈ (stmts.foldl
      (fun acc s =>
        match s with
        | .funcDecl name params retType _ =>
          (acc.1 ++ [fnOfDecl name params retType], acc.2 || decide (name = "main"))
        | _ => acc)
      acc).1, f.name = "sleaf_main" := by
  induction stmts with
  | nil =>
    intro acc hc
    simp [containsMainDecl] at hc
  | cons s rest ih =>
    intro acc hc
    rw [List.foldl_cons]
    cases s
    case funcDecl n p r b =>
      by_cases hn : n = "main"
      · refine ⟨fnOfDecl n p r, prepass_go_mono rest _ _ ?_, ?_⟩
        · exact List.mem_append_right _ (List.mem_singleton.mpr rfl)
        · simp [fnOfDecl, hn]
      · refine ih _ ?_
        have hc2 := hc
        simp only [containsMainDecl, List.any_cons] at hc2
        rw [Bool.or_eq_true] at hc2
        rcases hc2 with hc2 | hc2
        · exact absurd (of_decide_eq_true hc2) hn
        · simpa [containsMainDecl] using hc2
    all_goals refine ih _ ?_
    all_goals simpa [containsMainDecl, List.any_cons] using hc

theorem prepass_main (stmts : List Stmt) (hc : containsMainDecl stmts = true) :
    ∃ f ∈ (prepass stmts).1, f.name = "sleaf_main" := by
  have h := prepass_go_main stmts ([], false) hc
  simpa [prepass] using h

theorem prepass_go_no_main (stmts : List Stmt) : ∀ (acc : List Fn × Bool),
    (∀ f ∈ acc.1, f.name ≠ "main") →
    ∀ f ∈ (stmts.foldl
      (fun acc s =>
        match s with
        | .funcDecl name params retType _ =>
          (acc.1 ++ [fnOfDecl name params retType], acc.2 || decide (name = "main"))
        | _ => acc)
      acc).1, f.name ≠ "main" := by
  induction stmts with
  | nil => intro acc hacc; exact hacc
  | cons s rest ih =>
    intro acc hacc
    rw [List.foldl_cons]
    apply ih
    cases s
    case funcDecl n p r b =>
      intro f hf
      have hf2 : f ∈ acc.1 ++ [fnOfDecl n p r] := hf
      rw [List.mem_append, List.mem_singleton] at hf2
      rcases hf2 with hf2 | rfl
      · exact hacc f hf2
      · show (if n = "main" then "sleaf_main" else n) ≠ "main"
        split
        · decide
        · rename_i hne
          exact hne
    all_goals exact hacc

theorem prepass_no_main (stmts : List Stmt) :
    ∀ f ∈ (prepass stmts).1, f.name ≠ "main" := by
  have h := prepass_go_no_main stmts ([], false) (by intro f hf; simp at hf)
  simpa [prepass] using h

theorem wrapper_blocks (cg : CG) (h : ∀ b ∈ cg.blocks, b.parent ≠ some "main")
    (i1 i2 : Instr) :
    funcBlocks
      (emit (emit (freshReg (setIP (newBlock cg "entry" (some "main")).2
        (newBlock cg "entry" (some "main")).1)).2 i1) i2) "main" =
      [⟨cg.nextBlock, "entry", some "main", [i1, i2]⟩] := by
  simp only [newBlock, setIP, freshReg, emit, funcBlocks]
  rw [List.map_append, List.map_append, List.filter_append]
  have h1 : ∀ (f1 f2 : BBlock → BBlock),
      (∀ b, (f1 b).parent = b.parent) → (∀ b, (f2 b).parent = b.parent) →
      List.filter (fun b => b.parent = some "main") ((cg.blocks.map f1).map f2) = [] := by
    intro f1 f2 hf1 hf2
    rw [List.filter_eq_nil_iff]
    intro a ha
    simp only [List.mem_map] at ha
    obtain ⟨a1, ⟨b0, hb0, rfl⟩, rfl⟩ := ha
    simp only [decide_eq_true_eq, hf2, hf1]
    exact h b0 hb0
  rw [h1]
  · simp
  · intro b
    split
    · rfl
    · rfl
  · intro b
    split
    · rfl
    · rfl

/-- C7: the generated module contains both the renamed internal function
`sleaf_main` and a synthesized entry point literally named `main` — whose
single entry block calls `sleaf_main` and returns its result — exactly
when the statement list contains a FunctionDecl named "main". -/
theorem main_wrapper_iff (stmts : List Stmt) :
    containsMainDecl stmts = true ↔
      ((∃ f ∈ (generate stmts).module, f.name = "sleaf_main") ∧
       (∃ f ∈ (generate stmts).module, f.name = "main") ∧
       (∃ bid r retTy, funcBlocks (generate stmts).cg "main" =
          [⟨bid, "entry", some "main",
            [Instr.callI r "sleaf_main" [], Instr.retI (some (Val.reg r retTy))]⟩])) := by
  constructor
  · intro hc
    have hpre2 : (prepass stmts).2 = true := by
      rw [prepass_snd]
      exact hc
    obtain ⟨f0, hf0mem, hf0name⟩ := prepass_main stmts hc
    have hfindS : ((prepass stmts).1.find? (fun f => f.name = "sleaf_main")).isSome := by
      rw [List.find?_isSome]
      exact ⟨f0, hf0mem, by simp [hf0name]⟩
    obtain ⟨f1, hfind⟩ := Option.isSome_iff_exists.mp hfindS
    refine ⟨⟨f0, ?_, hf0name⟩, ⟨⟨"main", .i 32, [("", .i 32), ("", .ptr)]⟩, ?_, rfl⟩, ?_⟩
    · simp only [generate]
      rw [if_pos hpre2]
      dsimp only
      simp only [generateMainWrapper]
      rw [hfind]
      dsimp only
      exact List.mem_append_left _ hf0mem
    · simp only [generate]
      rw [if_pos hpre2]
      dsimp only
      simp only [generateMainWrapper]
      rw [hfind]
      dsimp only
      exact List.mem_append_right _ (List.mem_singleton.mpr rfl)
    · have hok : cgOkMain (stmts.foldl (fun cg s => cgStmt (prepass stmts).1 s cg) cgInit) :=
        foldl_cgStmt_ok _ _ _ cgInit_ok
      simp only [generate]
      rw [if_pos hpre2]
      dsimp only
      simp only [generateMainWrapper]
      rw [hfind]
      dsimp only
      exact ⟨_, _, _, wrapper_blocks _ (fun b hb => (hok.1 b hb).1) _ _⟩
  · intro hrhs
    by_cases hc : containsMainDecl stmts = true
    · exact hc
    · exfalso
      have hfalse : containsMainDecl stmts = false := by
        cases h2 : containsMainDecl stmts
        · rfl
        · exact absurd h2 hc
      have hpre2 : (prepass stmts).2 = false := by
        rw [prepass_snd]
        exact hfalse
      obtain ⟨hsl, ⟨fm, hfm, hfmname⟩, hwb⟩ := hrhs
      have hmod : (generate stmts).module = (prepass stmts).1 := by
        simp only [generate]
        rw [if_neg (by simp [hpre2])]
      rw [hmod] at hfm
      exact prepass_no_main stmts fm hfm hfmname

end Sleaf
